import Mathlib

/-!
# Report system (`be/models`, `be/api`): shallow embedding and verified properties

The Go program keeps three package-level maps (`reports`, `evaluations`,
`evaluationsByReportID`) and a constant department catalog.  They are modelled
as the fields of a `World` value that every operation receives and returns.

Modelling conventions

* `map[string]*T` is an `AList` (association list with pairwise distinct keys)
  holding the pointed-to values.  The program never stores one pointer under two
  keys of a map and stores every report under its own non-empty `ID`
  (`models.WellKeyed`); on such states reading a pointer and writing the mutated
  object back under the same key is the same as mutating it in place.
* `evaluations` and `evaluationsByReportID` hold the same pointer for an evaluation.  In
  `World` each map holds the pointed-to value: this is what the program does when every
  `SaveEvaluation` is called on a newly built struct, as `CreateReport` calls it
  (`models.ptr.sim_step`, `models.ptr.sim_run`).  `models.ptr` has the two maps with
  pointers into a heap, for callers that save a struct they already hold; the properties
  of `SaveEvaluation` itself and of the evaluation index are stated there.
* `time.Time` is an integer number of nanoseconds; `time.Now()` reads the next
  element of the stream `Env.clock` and advances `World.clockReads`.
* `uuid.New().String()` reads the next element of the stream `Env.uuid` and
  advances `World.uuidDraws`.
* Go `int` is modelled by `Int`.  The only arithmetic is `Offset + Limit` in
  `models.ListReports`, evaluated only when `Offset < len(result)`.  `models.ListReports`
  takes the sum in the integers, which is what Go computes unless the sum leaves the
  64-bit range (`models.listReports64_eq`), and never does through the API
  (`api.listReports64_api`); `models.int64.ListReports` takes it with wrap-around.
* A Go `(value, error)` result is an `Except`; a run-time panic is `none`.
* The order in which `range reports` visits the map is not fixed by Go; the scan of
  `models.ListReports` receives it as the argument `visit`, and the theorems hold for every
  `visit` that lists the entries of the map once each.
* Calls that run at the same time are modelled by interleaving the three parts of
  `SubmitReport` (load, check-draft, store) of each call in program order (`api.submitStep`,
  `api.runSchedule`); taken without interruption they are `SubmitReport` itself.
* The goroutine that `SubmitReport` starts only logs; what it computes is returned next to
  the response as `Submission.delivery`.
* `rlog` calls have no effect on the modelled state and are omitted.
-/

namespace models

/-- Instants of `time.Time`, in nanoseconds. -/
abbrev Time := Int

/-- Durations of `time.Duration`, in nanoseconds. -/
abbrev Duration := Int

/-- One hour, `time.Hour`. -/
def Hour : Duration := 3600000000000

/-- A value of type `interface{}` stored in report metadata.  The program only copies
such values, so they are kept as an uninterpreted encoding. -/
structure Any where
  encoded : String
deriving DecidableEq, Repr

/-- The type `map[string]interface{}` of report metadata. -/
abbrev MetadataMap := List (String × Any)

/-- The Go `error` values produced by package `models`. -/
inductive Error where
  | ErrReportNotFound
  | ErrEvaluationNotFound
  | departmentNotFound
deriving DecidableEq, Repr

/-- Struct `models.Report`. -/
structure Report where
  ID : String
  Title : String
  Description : String
  ProjectID : String
  AuthorID : String
  DepartmentID : String
  Status : String
  CreatedAt : Time
  UpdatedAt : Time
  SubmittedAt : Option Time
  Metadata : MetadataMap
deriving DecidableEq, Repr

/-- Struct `models.ListReportsParams`; a nil `*string` filter is `none`. -/
structure ListReportsParams where
  Status : Option String
  AuthorID : Option String
  ProjectID : Option String
  Limit : Int
  Offset : Int
deriving DecidableEq, Repr

/-- Struct `models.Evaluation`. -/
structure Evaluation where
  ID : String
  ReportID : String
  SecurityScore : Int
  PerformanceScore : Int
  MemoryScore : Int
  TestingScore : Int
  ErrorScore : Int
  LoadScore : Int
  SecurityDetails : String
  PerformanceDetails : String
  MemoryDetails : String
  TestingDetails : String
  ErrorDetails : String
  LoadDetails : String
  EvaluatorID : String
  CreatedAt : Time
  UpdatedAt : Time
deriving DecidableEq, Repr

/-- Struct `models.Department`. -/
structure Department where
  ID : String
  Name : String
deriving DecidableEq, Repr

/-- The argument `ctx context.Context`; no modelled function inspects it. -/
structure Context where
  values : List (String × String)
deriving DecidableEq, Repr

/-- The sources of values that come from outside the program: the successive results of
`time.Now()` and of `uuid.New().String()`. -/
structure Env where
  clock : Nat → Time
  uuid : Nat → String

/-- A Go map with string keys. -/
abbrev GoMap (β : Type) := AList (fun _ : String => β)

/-- The package-level variables of `models`, with the number of clock readings and of
identifier draws made so far. -/
structure World where
  reports : GoMap Report
  evaluations : GoMap Evaluation
  evaluationsByReportID : GoMap Evaluation
  departments : GoMap Department
  clockReads : Nat
  uuidDraws : Nat

/-- Representation invariant of the `reports` map: every report is stored under its own,
non-empty `ID`. -/
def WellKeyed (m : GoMap Report) : Prop :=
  ∀ k r, m.lookup k = some r → r.ID = k ∧ k ≠ ""

/-- The call `time.Now()`: the next clock reading. -/
def timeNow (env : Env) (w : World) : Time × World :=
  (env.clock w.clockReads, { w with clockReads := w.clockReads + 1 })

/-- The call `uuid.New().String()`: the next generated identifier. -/
def newUUID (env : Env) (w : World) : String × World :=
  (env.uuid w.uuidDraws, { w with uuidDraws := w.uuidDraws + 1 })

/-- Function `SaveReport` of `report.go`: returns the report as left behind the pointer,
and the new world.  The Go function always returns a nil error. -/
def SaveReport (env : Env) (report : Report) (w : World) : Except Error (Report × World) :=
  -- Generate ID if not provided
  let (report, w) :=
    if report.ID = "" then
      let (id, w) := newUUID env w
      ({ report with ID := id }, w)
    else (report, w)
  -- Update timestamps
  let (now, w) := timeNow env w
  let report := { report with UpdatedAt := now }
  -- Store in memory
  .ok (report, { w with reports := w.reports.insert report.ID report })

/-- Function `GetReportByID` of `report.go`. -/
def GetReportByID (id : String) (w : World) : Except Error Report :=
  match w.reports.lookup id with
  | none => .error .ErrReportNotFound
  | some report => .ok report

/-- One filter test of the loop of `ListReports`, `filter != nil && field != *filter`:
`true` when the `continue` statement is taken. -/
def skips (filter : Option String) (field : String) : Bool :=
  match filter with
  | none => false
  | some wanted => field != wanted

/-- The three filter tests of the loop of `ListReports`: `true` when the report reaches
`result = append(result, *report)`. -/
def retained (params : ListReportsParams) (report : Report) : Bool :=
  !skips params.Status report.Status &&
  !skips params.AuthorID report.AuthorID &&
  !skips params.ProjectID report.ProjectID

/-- The slice expression `s[lo:hi]` of Go, which panics (`none`) unless
`0 ≤ lo ≤ hi ≤ cap(s)`.  `ListReports` is its only user and clamps `hi` to `len(s)` first,
and `len(s) ≤ cap(s)`, so the upper bound is checked against the length. -/
def goSlice {α : Type} (s : List α) (lo hi : Int) : Option (List α) :=
  if 0 ≤ lo ∧ lo ≤ hi ∧ hi ≤ (s.length : Int) then
    some ((s.drop lo.toNat).take (hi.toNat - lo.toNat))
  else none

/-- Function `ListReports` of `report.go`.  `visit` is the sequence of map entries in the
order in which `range reports` yields them on this call (Go leaves it unspecified).  The
result is `none` when the final slice expression panics; the error result is always nil.
The sum `params.Offset + params.Limit` is taken in the integers; `int64.ListReports` is
the same function with the sum wrapped to 64 bits, and the two agree whenever the sum
stays in the range of `int`. -/
def ListReports (visit : List (String × Report)) (params : ListReportsParams) :
    Option (List Report × Int) :=
  let result := (visit.map Prod.snd).filter (retained params)
  -- Get total count
  let total : Int := result.length
  -- Apply pagination
  if params.Offset ≥ (result.length : Int) then some ([], total)
  else
    let end0 := params.Offset + params.Limit
    let end1 := if end0 > (result.length : Int) then (result.length : Int) else end0
    (goSlice result params.Offset end1).map (fun page => (page, total))

/-- The entries of a map as key and value pairs. -/
def entriesOf {β : Type} (m : GoMap β) : List (String × β) :=
  m.entries.map (fun e => (e.1, e.2))

/-- Function `DeleteReport` of `report.go`. -/
def DeleteReport (id : String) (w : World) : Option Error × World :=
  match w.reports.lookup id with
  | none => (some .ErrReportNotFound, w)
  | some _ => (none, { w with reports := w.reports.erase id })

/-- Function `GetUserIDFromContext` of `report.go`: the mock identity. -/
def GetUserIDFromContext (_ctx : Context) : Except Error String :=
  .ok "user-123"

/-- Function `GetDepartmentByID` of `report.go`. -/
def GetDepartmentByID (id : String) (w : World) : Except Error Department :=
  match w.departments.lookup id with
  | none => .error .departmentNotFound
  | some dept => .ok dept

/-- Function `SaveEvaluation` of `evaluation.go`: returns the evaluation as left behind
the pointer, and the new world.  The Go function always returns a nil error.  Both maps
receive the saved value, which is the effect of the call on a newly built struct;
`ptr.SaveEvaluation` is the function on the pointer, for any struct. -/
def SaveEvaluation (env : Env) (evaluation : Evaluation) (w : World) :
    Except Error (Evaluation × World) :=
  -- Generate ID if not provided
  let (evaluation, w) :=
    if evaluation.ID = "" then
      let (id, w) := newUUID env w
      ({ evaluation with ID := id }, w)
    else (evaluation, w)
  -- Update timestamps
  let (now, w) := timeNow env w
  let evaluation := { evaluation with UpdatedAt := now }
  -- Store in memory
  .ok (evaluation,
    { w with
      evaluations := w.evaluations.insert evaluation.ID evaluation
      evaluationsByReportID := w.evaluationsByReportID.insert evaluation.ReportID evaluation })

/-- Function `GetEvaluationByID` of `evaluation.go`. -/
def GetEvaluationByID (id : String) (w : World) : Except Error Evaluation :=
  match w.evaluations.lookup id with
  | none => .error .ErrEvaluationNotFound
  | some evaluation => .ok evaluation

/-- Function `GetEvaluationByReportID` of `evaluation.go`. -/
def GetEvaluationByReportID (reportID : String) (w : World) : Except Error Evaluation :=
  match w.evaluationsByReportID.lookup reportID with
  | none => .error .ErrEvaluationNotFound
  | some evaluation => .ok evaluation

/-- Function `DeleteEvaluation` of `evaluation.go`. -/
def DeleteEvaluation (id : String) (w : World) : Option Error × World :=
  match w.evaluations.lookup id with
  | none => (some .ErrEvaluationNotFound, w)
  | some evaluation =>
    (none,
      { w with
        evaluations := w.evaluations.erase id
        evaluationsByReportID := w.evaluationsByReportID.erase evaluation.ReportID })

end models

namespace errs

/-- The error kinds of `encore.dev/beta/errs` used by the API. -/
inductive ErrCode where
  | Unauthenticated
  | NotFound
  | PermissionDenied
  | InvalidArgument
  | Internal
deriving DecidableEq, Repr

/-- An API error: a kind and a message. -/
structure Error where
  code : ErrCode
  message : String
deriving DecidableEq, Repr

/-- Constructor `errs.Unauthenticated`. -/
def Unauthenticated (msg : String) : Error := ⟨.Unauthenticated, msg⟩

/-- Constructor `errs.NotFound`. -/
def NotFound (msg : String) : Error := ⟨.NotFound, msg⟩

/-- Constructor `errs.Permission`. -/
def Permission (msg : String) : Error := ⟨.PermissionDenied, msg⟩

/-- Constructor `errs.InvalidArgument`. -/
def InvalidArgument (msg : String) : Error := ⟨.InvalidArgument, msg⟩

/-- Constructor `errs.Internal`. -/
def Internal (msg : String) : Error := ⟨.Internal, msg⟩

end errs

namespace api

open models

/-- Struct `api.Evaluation`. -/
structure Evaluation where
  SecurityScore : Int
  PerformanceScore : Int
  MemoryScore : Int
  TestingScore : Int
  ErrorScore : Int
  LoadScore : Int
  SecurityDetails : String
  PerformanceDetails : String
  MemoryDetails : String
  TestingDetails : String
  ErrorDetails : String
  LoadDetails : String
  EvaluatorID : String
deriving DecidableEq, Repr

/-- Struct `api.Report`. -/
structure Report where
  ID : String
  Title : String
  Description : String
  ProjectID : String
  AuthorID : String
  DepartmentID : String
  Status : String
  CreatedAt : Time
  UpdatedAt : Time
  SubmittedAt : Option Time
  Metadata : MetadataMap
  Evaluation : Option Evaluation
deriving DecidableEq, Repr

/-- Struct `api.CreateReportRequest`. -/
structure CreateReportRequest where
  Title : String
  Description : String
  ProjectID : String
  DepartmentID : String
  Evaluation : Option Evaluation
  Metadata : MetadataMap
deriving DecidableEq, Repr

/-- Struct `api.ListReportsRequest`. -/
structure ListReportsRequest where
  Status : Option String
  AuthorID : Option String
  ProjectID : Option String
  Limit : Int
  Offset : Int
deriving DecidableEq, Repr

/-- Struct `api.ListReportsResponse`. -/
structure ListReportsResponse where
  Reports : List Report
  Total : Int
deriving DecidableEq, Repr

/-- Function `convertModelToAPIReport`. -/
def convertModelToAPIReport (model : models.Report) (evaluation : Option Evaluation) : Report :=
  { ID := model.ID
    Title := model.Title
    Description := model.Description
    ProjectID := model.ProjectID
    AuthorID := model.AuthorID
    DepartmentID := model.DepartmentID
    Status := model.Status
    CreatedAt := model.CreatedAt
    UpdatedAt := model.UpdatedAt
    SubmittedAt := model.SubmittedAt
    Metadata := model.Metadata
    Evaluation := evaluation }

/-- The struct literal `&Evaluation{...}` that `ListReports` and `SubmitReport` build from
a stored evaluation. -/
def apiEvaluationOf (evaluation : models.Evaluation) : Evaluation :=
  { SecurityScore := evaluation.SecurityScore
    PerformanceScore := evaluation.PerformanceScore
    MemoryScore := evaluation.MemoryScore
    TestingScore := evaluation.TestingScore
    ErrorScore := evaluation.ErrorScore
    LoadScore := evaluation.LoadScore
    SecurityDetails := evaluation.SecurityDetails
    PerformanceDetails := evaluation.PerformanceDetails
    MemoryDetails := evaluation.MemoryDetails
    TestingDetails := evaluation.TestingDetails
    ErrorDetails := evaluation.ErrorDetails
    LoadDetails := evaluation.LoadDetails
    EvaluatorID := evaluation.EvaluatorID }

/-- The lookup `models.GetEvaluationByReportID` followed by `if evaluation != nil`, as
written in `ListReports` and `SubmitReport`: a failed lookup leaves the pointer nil. -/
def joinedEvaluation (reportID : String) (w : World) : Option Evaluation :=
  match GetEvaluationByReportID reportID w with
  | .error _ => none
  | .ok evaluation => some (apiEvaluationOf evaluation)

/-- A scalar stored in the nested `evaluation` object of the delivery payload. -/
inductive Field where
  | int (i : Int)
  | str (s : String)
deriving DecidableEq, Repr

/-- A value stored in the delivery payload `map[string]interface{}`. -/
inductive Value where
  | str (s : String)
  | time (t : Option Time)
  | metadata (m : MetadataMap)
  | object (fields : List (String × Field))
deriving DecidableEq, Repr

/-- The delivery payload, as the list of its keys and values. -/
abbrev Payload := List (String × Value)

/-- Function `submitToDepartment`: the payload handed to the department, or the error of
the department lookup. -/
def submitToDepartment (report : models.Report) (evaluation : Option Evaluation) (w : World) :
    Except models.Error Payload :=
  -- Get department details
  match GetDepartmentByID report.DepartmentID w with
  | .error err => .error err
  | .ok _department =>
    -- Prepare submission payload
    let payload : Payload :=
      [ ("report_id", .str report.ID),
        ("title", .str report.Title),
        ("description", .str report.Description),
        ("project_id", .str report.ProjectID),
        ("author_id", .str report.AuthorID),
        ("department_id", .str report.DepartmentID),
        ("submitted_at", .time report.SubmittedAt),
        ("metadata", .metadata report.Metadata) ]
    let payload : Payload :=
      match evaluation with
      | none => payload
      | some evaluation =>
        payload ++
          [ ("evaluation", .object
              [ ("security_score", .int evaluation.SecurityScore),
                ("performance_score", .int evaluation.PerformanceScore),
                ("memory_score", .int evaluation.MemoryScore),
                ("testing_score", .int evaluation.TestingScore),
                ("error_score", .int evaluation.ErrorScore),
                ("load_score", .int evaluation.LoadScore),
                ("security_details", .str evaluation.SecurityDetails),
                ("performance_details", .str evaluation.PerformanceDetails),
                ("memory_details", .str evaluation.MemoryDetails),
                ("testing_details", .str evaluation.TestingDetails),
                ("error_details", .str evaluation.ErrorDetails),
                ("load_details", .str evaluation.LoadDetails) ]) ]
    .ok payload

/-- Function `CreateReport`: the response and the new world. -/
def CreateReport (env : Env) (ctx : Context) (req : CreateReportRequest) (w : World) :
    Except errs.Error Report × World :=
  -- Validate user is authenticated
  match GetUserIDFromContext ctx with
  | .error _ => (.error (errs.Unauthenticated "user must be authenticated"), w)
  | .ok userID =>
    -- Create report in database
    let (createdAt, w) := timeNow env w
    let (updatedAt, w) := timeNow env w
    let report : models.Report :=
      { ID := ""
        Title := req.Title
        Description := req.Description
        ProjectID := req.ProjectID
        AuthorID := userID
        DepartmentID := req.DepartmentID
        Status := "draft"
        CreatedAt := createdAt
        UpdatedAt := updatedAt
        SubmittedAt := none
        Metadata := req.Metadata }
    -- Save to database
    match SaveReport env report w with
    | .error _ => (.error (errs.Internal "failed to save report"), w)
    | .ok (report, w) =>
      -- If evaluation is provided, save it
      let w :=
        match req.Evaluation with
        | none => w
        | some reqEvaluation =>
          let (evalCreatedAt, w) := timeNow env w
          let (evalUpdatedAt, w) := timeNow env w
          let evaluation : models.Evaluation :=
            { ID := ""
              ReportID := report.ID
              SecurityScore := reqEvaluation.SecurityScore
              PerformanceScore := reqEvaluation.PerformanceScore
              MemoryScore := reqEvaluation.MemoryScore
              TestingScore := reqEvaluation.TestingScore
              ErrorScore := reqEvaluation.ErrorScore
              LoadScore := reqEvaluation.LoadScore
              SecurityDetails := reqEvaluation.SecurityDetails
              PerformanceDetails := reqEvaluation.PerformanceDetails
              MemoryDetails := reqEvaluation.MemoryDetails
              TestingDetails := reqEvaluation.TestingDetails
              ErrorDetails := reqEvaluation.ErrorDetails
              LoadDetails := reqEvaluation.LoadDetails
              EvaluatorID := userID
              CreatedAt := evalCreatedAt
              UpdatedAt := evalUpdatedAt }
          match SaveEvaluation env evaluation w with
          | .error _ => w -- Continue even if evaluation save fails
          | .ok (_, w) => w
      -- Convert to API response
      (.ok (convertModelToAPIReport report req.Evaluation), w)

/-- The `models.ListReportsParams` literal that `ListReports` passes to the repository,
with the defaults of the lines under `// Set defaults`. -/
def listParams (req : ListReportsRequest) : ListReportsParams :=
  let limit := if req.Limit > 0 ∧ req.Limit ≤ 100 then req.Limit else 50
  let offset := if req.Offset > 0 then req.Offset else 0
  { Status := req.Status
    AuthorID := req.AuthorID
    ProjectID := req.ProjectID
    Limit := limit
    Offset := offset }

/-- Function `ListReports` of the API.  `visit` is the order in which the repository scan
ranges over the `reports` map; `none` is a panic of the repository call.  The world is
only read. -/
def ListReports (ctx : Context) (req : ListReportsRequest) (visit : List (String × models.Report))
    (w : World) : Option (Except errs.Error ListReportsResponse) :=
  -- Validate user is authenticated
  match GetUserIDFromContext ctx with
  | .error _ => some (.error (errs.Unauthenticated "user must be authenticated"))
  | .ok _ =>
    -- Get reports from database
    match models.ListReports visit (listParams req) with
    | none => none
    | some (reports, total) =>
      -- Convert to API response
      let apiReports :=
        reports.map (fun report => convertModelToAPIReport report (joinedEvaluation report.ID w))
      some (.ok { Reports := apiReports, Total := total })

/-- What a call of `SubmitReport` leaves behind: the response, the new world, and the
result computed by the detached goroutine that runs `submitToDepartment` (`none` when the
call returns before starting it).  The goroutine only logs its result. -/
structure Submission where
  response : Except errs.Error Report
  world : World
  delivery : Option (Except models.Error Payload)

/-- Function `SubmitReport`. -/
def SubmitReport (env : Env) (ctx : Context) (id : String) (w : World) : Submission :=
  -- Validate user is authenticated
  match GetUserIDFromContext ctx with
  | .error _ => ⟨.error (errs.Unauthenticated "user must be authenticated"), w, none⟩
  | .ok userID =>
    -- Get report from database
    match GetReportByID id w with
    | .error err =>
      if err = .ErrReportNotFound then ⟨.error (errs.NotFound "report not found"), w, none⟩
      else ⟨.error (errs.Internal "failed to get report"), w, none⟩
    | .ok report =>
      -- Check if user is the author
      if report.AuthorID ≠ userID then
        ⟨.error (errs.Permission "only the author can submit the report"), w, none⟩
      -- Check if report is already submitted
      else if report.Status ≠ "draft" then
        ⟨.error (errs.InvalidArgument "report is already submitted"), w, none⟩
      else
        -- Update report status
        let (now, w) := timeNow env w
        let report :=
          { report with Status := "submitted", UpdatedAt := now, SubmittedAt := some now }
        -- Save to database
        match SaveReport env report w with
        | .error _ => ⟨.error (errs.Internal "failed to save report"), w, none⟩
        | .ok (report, w) =>
          -- Get evaluation
          let apiEvaluation := joinedEvaluation report.ID w
          -- Trigger automatic submission to department
          let delivery := submitToDepartment report apiEvaluation w
          -- Convert to API response
          ⟨.ok (convertModelToAPIReport report apiEvaluation), w, some delivery⟩

/-- A call of one of the three API operations, with its arguments. -/
inductive Op where
  | create (ctx : Context) (req : CreateReportRequest)
  | list (ctx : Context) (req : ListReportsRequest) (visit : List (String × models.Report))
  | submit (ctx : Context) (id : String)

/-- The world left by one API call. -/
def step (env : Env) (op : Op) (w : World) : World :=
  match op with
  | .create ctx req => (CreateReport env ctx req w).2
  | .list _ _ _ => w
  | .submit ctx id => (SubmitReport env ctx id w).world

/-- Whether the API call succeeds (returns a nil error without panicking). -/
def succeeds (env : Env) (op : Op) (w : World) : Bool :=
  match op with
  | .create ctx req => (CreateReport env ctx req w).1.isOk
  | .list ctx req visit =>
    match ListReports ctx req visit w with
    | some (.ok _) => true
    | _ => false
  | .submit ctx id => (SubmitReport env ctx id w).response.isOk

/-- The world left by a sequence of API calls, made one after the other. -/
def run (env : Env) : List Op → World → World
  | [], w => w
  | op :: ops, w => run env ops (step env op w)

/-- The contract of `uuid.New()` as seen from world `w`: no identifier still to be drawn
is the empty string or a key of the report map, and no two of them are equal. -/
def FreshIDs (env : Env) (w : World) : Prop :=
  (∀ n, w.uuidDraws ≤ n → env.uuid n ≠ "" ∧ env.uuid n ∉ w.reports) ∧
  (∀ m n, w.uuidDraws ≤ m → m < n → env.uuid m ≠ env.uuid n)

end api

namespace models

/-- The package-level variable `departments` of `report.go`. -/
def departments : GoMap Department :=
  AList.insert "dept-789" ⟨"dept-789", "Frontend"⟩
    (AList.insert "dept-456" ⟨"dept-456", "Backend"⟩
      (AList.insert "dept-123" ⟨"dept-123", "Security"⟩ ∅))

/-- The package-level variables before any `init` function has run. -/
def emptyWorld : World :=
  { reports := ∅
    evaluations := ∅
    evaluationsByReportID := ∅
    departments := departments
    clockReads := 0
    uuidDraws := 0 }

/-- Function `init` of `evaluation.go`. -/
def initEvaluations (env : Env) (w : World) : World :=
  let (createdNow, w) := timeNow env w
  let (updatedNow, w) := timeNow env w
  let sampleEvaluations : List Evaluation :=
    [ { ID := "eval-123"
        ReportID := "report-123"
        SecurityScore := 8
        PerformanceScore := 7
        MemoryScore := 6
        TestingScore := 7
        ErrorScore := 8
        LoadScore := 6
        SecurityDetails := "JWT implementation, CSRF protection, input validation, rate limiting"
        PerformanceDetails := "Response caching, lazy loading, code splitting, asset optimization"
        MemoryDetails :=
          "Efficient state management, memory leak prevention, optimized resource loading"
        TestingDetails := "Unit tests, integration tests, e2e tests, API testing"
        ErrorDetails := "Comprehensive validation, error recovery, user feedback, logging"
        LoadDetails := "Handles 500 users/sec, 20MB RAM/user, efficient DB connections"
        EvaluatorID := "user-123"
        CreatedAt := createdNow + (-24) * Hour
        UpdatedAt := updatedNow + (-24) * Hour } ]
  sampleEvaluations.foldl
    (fun w evaluation =>
      { w with
        evaluations := w.evaluations.insert evaluation.ID evaluation
        evaluationsByReportID := w.evaluationsByReportID.insert evaluation.ReportID evaluation })
    w

/-- Function `init` of `report.go`. -/
def initReports (env : Env) (w : World) : World :=
  let (created1, w) := timeNow env w
  let (updated1, w) := timeNow env w
  let (submitted1, w) := timeNow env w
  let (created2, w) := timeNow env w
  let (updated2, w) := timeNow env w
  let sampleReports : List Report :=
    [ { ID := "report-123"
        Title := "Authentication Module"
        Description := "Implementation of JWT-based authentication system"
        ProjectID := "project-123"
        AuthorID := "user-123"
        DepartmentID := "dept-123"
        Status := "submitted"
        CreatedAt := created1 + (-48) * Hour
        UpdatedAt := updated1 + (-24) * Hour
        SubmittedAt := some (submitted1 + (-24) * Hour)
        Metadata := [] },
      { ID := "report-456"
        Title := "API Gateway"
        Description := "Implementation of API Gateway with rate limiting"
        ProjectID := "project-456"
        AuthorID := "user-123"
        DepartmentID := "dept-456"
        Status := "draft"
        CreatedAt := created2 + (-24) * Hour
        UpdatedAt := updated2 + (-12) * Hour
        SubmittedAt := none
        Metadata := [] } ]
  sampleReports.foldl
    (fun w report => { w with reports := w.reports.insert report.ID report }) w

/-- The world when the program starts serving: the `init` functions of the package run in
the order of their file names, `evaluation.go` before `report.go`. -/
def initWorld (env : Env) : World :=
  initReports env (initEvaluations env emptyWorld)

/-- A report agrees with every non-nil filter field of `params`: each of the three
filters is either nil or equal, as a string, to the report's field. -/
def Matches (params : ListReportsParams) (r : Report) : Prop :=
  (params.Status = none ∨ params.Status = some r.Status) ∧
  (params.AuthorID = none ∨ params.AuthorID = some r.AuthorID) ∧
  (params.ProjectID = none ∨ params.ProjectID = some r.ProjectID)

instance decidableMatches (params : ListReportsParams) (r : Report) :
    Decidable (Matches params r) := by
  unfold Matches
  infer_instance

/-- The number of stored reports that agree with every non-nil filter field. -/
def matchCount (m : GoMap Report) (params : ListReportsParams) : Nat :=
  (entriesOf m).countP (fun e => decide (Matches params e.2))

end models

namespace api

open models

/-- The report that a successful `SubmitReport` stores for the loaded report `r`. -/
def submittedForm (env : Env) (w : World) (r : models.Report) : models.Report :=
  { r with
    Status := "submitted"
    UpdatedAt := env.clock (w.clockReads + 1)
    SubmittedAt := some (env.clock w.clockReads) }

/-- The world that a successful `SubmitReport` leaves for the loaded report `r`. -/
def submittedWorld (env : Env) (w : World) (r : models.Report) : World :=
  { w with
    clockReads := w.clockReads + 1 + 1
    reports := w.reports.insert r.ID (submittedForm env w r) }

/-- The report that `CreateReport` stores for the request `req`: the struct literal of
`CreateReport` after `SaveReport` has filled in the ID and refreshed `UpdatedAt`. -/
def createdReport (env : Env) (w : World) (req : CreateReportRequest) : models.Report :=
  { ID := env.uuid w.uuidDraws
    Title := req.Title
    Description := req.Description
    ProjectID := req.ProjectID
    AuthorID := "user-123"
    DepartmentID := req.DepartmentID
    Status := "draft"
    CreatedAt := env.clock w.clockReads
    UpdatedAt := env.clock (w.clockReads + 1 + 1)
    SubmittedAt := none
    Metadata := req.Metadata }

end api

namespace api

open models

/-- The evaluation that `CreateReport` stores for the evaluation data `data` of a request:
the struct literal of `CreateReport` after `SaveEvaluation` has filled in the ID and
refreshed `UpdatedAt`. -/
def createdEvaluation (env : Env) (w : World) (data : Evaluation) : models.Evaluation :=
  { ID := env.uuid (w.uuidDraws + 1)
    ReportID := env.uuid w.uuidDraws
    SecurityScore := data.SecurityScore
    PerformanceScore := data.PerformanceScore
    MemoryScore := data.MemoryScore
    TestingScore := data.TestingScore
    ErrorScore := data.ErrorScore
    LoadScore := data.LoadScore
    SecurityDetails := data.SecurityDetails
    PerformanceDetails := data.PerformanceDetails
    MemoryDetails := data.MemoryDetails
    TestingDetails := data.TestingDetails
    ErrorDetails := data.ErrorDetails
    LoadDetails := data.LoadDetails
    EvaluatorID := "user-123"
    CreatedAt := env.clock (w.clockReads + 1 + 1 + 1)
    UpdatedAt := env.clock (w.clockReads + 1 + 1 + 1 + 1 + 1) }

end api

namespace models

/-- The evaluation that `SaveEvaluation` leaves behind the pointer it was given. -/
def savedEvaluation (env : Env) (w : World) (e : Evaluation) : Evaluation :=
  { e with
    ID := if e.ID = "" then env.uuid w.uuidDraws else e.ID
    UpdatedAt := env.clock w.clockReads }

/-- The number of evaluations in a map whose `ReportID` is `r`. -/
def evaluationsFor (m : GoMap Evaluation) (r : String) : Nat :=
  (entriesOf m).countP (fun e => decide (e.2.ReportID = r))

end models

namespace api

open models

/-- The report that a successful `SubmitReport` stores for the loaded report `r`, on any
report map: `SaveReport` draws an identifier when the loaded report has an empty `ID`. -/
def storedSubmission (env : Env) (w : World) (r : models.Report) : models.Report :=
  { r with
    ID := if r.ID = "" then env.uuid w.uuidDraws else r.ID
    Status := "submitted"
    UpdatedAt := env.clock (w.clockReads + 1)
    SubmittedAt := some (env.clock w.clockReads) }

end api

namespace api

open models

/-- The world that a successful `SubmitReport` leaves for the loaded report `r`, on any
report map. -/
def submissionWorld (env : Env) (w : World) (r : models.Report) : World :=
  { w with
    clockReads := w.clockReads + 1 + 1
    uuidDraws := if r.ID = "" then w.uuidDraws + 1 else w.uuidDraws
    reports := w.reports.insert (storedSubmission env w r).ID (storedSubmission env w r) }

end api

namespace models

/-- The operands `params.Offset` and `end` of the slice expression that ends
`ListReports`, or `none` when the function returns at `if params.Offset >= len(result)`
without slicing. -/
def sliceBounds (visit : List (String × Report)) (params : ListReportsParams) :
    Option (Int × Int) :=
  let result := (visit.map Prod.snd).filter (retained params)
  if params.Offset ≥ (result.length : Int) then none
  else
    let end0 := params.Offset + params.Limit
    let end1 := if end0 > (result.length : Int) then (result.length : Int) else end0
    some (params.Offset, end1)

/-- A call of one of the two writing operations of `evaluation.go`. -/
inductive EvalOp where
  | save (evaluation : Evaluation)
  | delete (id : String)

/-- The world left by one call of `SaveEvaluation` or `DeleteEvaluation`. -/
def evalStep (env : Env) (op : EvalOp) (w : World) : World :=
  match op with
  | .save evaluation =>
    match SaveEvaluation env evaluation w with
    | .error _ => w
    | .ok (_, w') => w'
  | .delete id => (DeleteEvaluation id w).2

/-- The world left by a sequence of such calls, made one after the other. -/
def evalRun (env : Env) : List EvalOp → World → World
  | [], w => w
  | op :: ops, w => evalRun env ops (evalStep env op w)

end models

namespace api

open models

/-- Where a call of `SubmitReport` stands when other calls may run in between: before
loading the report, after loading it, after the draft check, or returned.  After loading,
the call holds the pointer that `GetReportByID` returned, kept here as the loaded value. -/
inductive Phase where
  | start
  | loaded (report : models.Report)
  | checked (report : models.Report)
  | done (response : Except errs.Error Report)

/-- The object behind the pointer that `GetReportByID(id)` returned, as it is now: the map
stores the pointer under `id`, so this is the report now stored there (the loaded value
if the key has been removed since, which no API call does). -/
def pointee (id : String) (loaded : models.Report) (w : World) : models.Report :=
  match w.reports.lookup id with
  | some report => report
  | none => loaded

/-- The next of the three parts of `SubmitReport`: load (authentication, `GetReportByID`
and the author check), check-draft (the test `report.Status != "draft"`, read through the
pointer), store (the three assignments, `SaveReport`, the evaluation lookup and the
response).  A call that has returned does nothing more. -/
def submitStep (env : Env) (ctx : Context) (id : String) (phase : Phase) (w : World) :
    Phase × World :=
  match phase with
  | .start =>
    match GetUserIDFromContext ctx with
    | .error _ => (.done (.error (errs.Unauthenticated "user must be authenticated")), w)
    | .ok userID =>
      match GetReportByID id w with
      | .error err =>
        if err = .ErrReportNotFound then (.done (.error (errs.NotFound "report not found")), w)
        else (.done (.error (errs.Internal "failed to get report")), w)
      | .ok report =>
        if report.AuthorID ≠ userID then
          (.done (.error (errs.Permission "only the author can submit the report")), w)
        else (.loaded report, w)
  | .loaded report =>
    if (pointee id report w).Status ≠ "draft" then
      (.done (.error (errs.InvalidArgument "report is already submitted")), w)
    else (.checked report, w)
  | .checked report =>
    let report := pointee id report w
    let (now, w) := timeNow env w
    let report :=
      { report with Status := "submitted", UpdatedAt := now, SubmittedAt := some now }
    match SaveReport env report w with
    | .error _ => (.done (.error (errs.Internal "failed to save report")), w)
    | .ok (report, w) =>
      let apiEvaluation := joinedEvaluation report.ID w
      (.done (.ok (convertModelToAPIReport report apiEvaluation)), w)
  | .done response => (.done response, w)

/-- Several calls `SubmitReport(ctx, id)` in flight: the call with index `i` takes its
next step. -/
def stepCall (env : Env) (ctx : Context) (id : String) (i : Nat)
    (state : List Phase × World) : List Phase × World :=
  match state.1.get? i with
  | none => state
  | some phase =>
    let (phase', w') := submitStep env ctx id phase state.2
    (state.1.set i phase', w')

/-- The calls take their steps in the order given by `schedule`, a list of call indices. -/
def runSchedule (env : Env) (ctx : Context) (id : String) :
    List Nat → List Phase × World → List Phase × World
  | [], state => state
  | i :: schedule, state => runSchedule env ctx id schedule (stepCall env ctx id i state)

/-- Whether a call has returned a report. -/
def Phase.succeeded : Phase → Bool
  | .done (.ok _) => true
  | _ => false

/-- Whether a call has returned. -/
def Phase.returned : Phase → Bool
  | .done _ => true
  | _ => false

/-- The number of calls that have returned a report. -/
def successes (phases : List Phase) : Nat :=
  phases.countP Phase.succeeded

end api

namespace models

/-- The largest value of Go's 64-bit `int`. -/
def maxInt : Int := 9223372036854775807

/-- The smallest value of Go's 64-bit `int`. -/
def minInt : Int := -9223372036854775808

/-- The value that Go's 64-bit `int` holds for the integer `x`: two's complement
wrap-around. -/
def wrapInt (x : Int) : Int :=
  (x + 9223372036854775808) % 18446744073709551616 - 9223372036854775808

namespace int64

/-- Function `ListReports` of `report.go` with the sum `params.Offset + params.Limit`
computed in 64-bit `int`, as Go computes it.  This is the only difference from
`models.ListReports`, which adds in the integers; the two agree whenever the sum does not
leave the range of `int` (`models.listReports64_eq`). -/
def ListReports (visit : List (String × Report)) (params : ListReportsParams) :
    Option (List Report × Int) :=
  let result := (visit.map Prod.snd).filter (retained params)
  -- Get total count
  let total : Int := result.length
  -- Apply pagination
  if params.Offset ≥ (result.length : Int) then some ([], total)
  else
    let end0 := wrapInt (params.Offset + params.Limit)
    let end1 := if end0 > (result.length : Int) then (result.length : Int) else end0
    (goSlice result params.Offset end1).map (fun page => (page, total))

end int64

end models

namespace models

/-- The address of an `Evaluation` struct in memory. -/
abbrev Ptr := Nat

/-- The zero value of struct `Evaluation`. -/
def zeroEvaluation : Evaluation :=
  { ID := ""
    ReportID := ""
    SecurityScore := 0
    PerformanceScore := 0
    MemoryScore := 0
    TestingScore := 0
    ErrorScore := 0
    LoadScore := 0
    SecurityDetails := ""
    PerformanceDetails := ""
    MemoryDetails := ""
    TestingDetails := ""
    ErrorDetails := ""
    LoadDetails := ""
    EvaluatorID := ""
    CreatedAt := 0
    UpdatedAt := 0 }

namespace ptr

/-- The variables `evaluations` and `evaluationsByReportID` as Go holds them: both maps
store pointers, and the structs they point to live in `objects`.  Addresses below
`allocated` are in use.  A nil pointer is never passed and is not modelled. -/
structure Store where
  objects : Ptr → Evaluation
  allocated : Nat
  evaluations : GoMap Ptr
  evaluationsByReportID : GoMap Ptr
  clockReads : Nat
  uuidDraws : Nat

/-- The expression `&Evaluation{...}`: a new struct at the next unused address. -/
def new (evaluation : Evaluation) (s : Store) : Ptr × Store :=
  (s.allocated,
    { s with
      objects := Function.update s.objects s.allocated evaluation
      allocated := s.allocated + 1 })

/-- An assignment through the pointer `p`, such as `p.ReportID = "report-456"`. -/
def assign (p : Ptr) (change : Evaluation → Evaluation) (s : Store) : Store :=
  { s with objects := Function.update s.objects p (change (s.objects p)) }

/-- Function `SaveEvaluation` of `evaluation.go` on the pointer it receives: the writes
to `ID` and `UpdatedAt` go through the pointer, and the pointer is what both maps store. -/
def SaveEvaluation (env : Env) (p : Ptr) (s : Store) : Option Error × Store :=
  -- Generate ID if not provided
  let s :=
    if (s.objects p).ID = "" then
      { assign p (fun e => { e with ID := env.uuid s.uuidDraws }) s with
        uuidDraws := s.uuidDraws + 1 }
    else s
  -- Update timestamps
  let s :=
    { assign p (fun e => { e with UpdatedAt := env.clock s.clockReads }) s with
      clockReads := s.clockReads + 1 }
  -- Store in memory
  (none,
    { s with
      evaluations := s.evaluations.insert (s.objects p).ID p
      evaluationsByReportID := s.evaluationsByReportID.insert (s.objects p).ReportID p })

/-- Function `GetEvaluationByID` of `evaluation.go`: the stored pointer. -/
def GetEvaluationByID (id : String) (s : Store) : Except Error Ptr :=
  match s.evaluations.lookup id with
  | none => .error .ErrEvaluationNotFound
  | some evaluation => .ok evaluation

/-- Function `GetEvaluationByReportID` of `evaluation.go`: the stored pointer. -/
def GetEvaluationByReportID (reportID : String) (s : Store) : Except Error Ptr :=
  match s.evaluationsByReportID.lookup reportID with
  | none => .error .ErrEvaluationNotFound
  | some evaluation => .ok evaluation

/-- Function `DeleteEvaluation` of `evaluation.go`. -/
def DeleteEvaluation (id : String) (s : Store) : Option Error × Store :=
  match s.evaluations.lookup id with
  | none => (some .ErrEvaluationNotFound, s)
  | some evaluation =>
    (none,
      { s with
        evaluations := s.evaluations.erase id
        evaluationsByReportID := s.evaluationsByReportID.erase (s.objects evaluation).ReportID })

/-- The evaluation that the caller reads behind the result of a lookup, if it succeeded. -/
def shown (s : Store) (result : Except Error Ptr) : Option Evaluation :=
  match result with
  | .ok p => some (s.objects p)
  | .error _ => none

/-- The struct behind `p` after `SaveEvaluation`: the struct as it was, with `UpdatedAt`
set to the clock reading of the call and, only if `ID` was empty, `ID` set to the
generated identifier. -/
def saved (env : Env) (p : Ptr) (s : Store) : Evaluation :=
  { s.objects p with
    ID := if (s.objects p).ID = "" then env.uuid s.uuidDraws else (s.objects p).ID
    UpdatedAt := env.clock s.clockReads }

/-- The pointer store before any `init` function has run. -/
def emptyStore : Store :=
  { objects := fun _ => zeroEvaluation
    allocated := 0
    evaluations := ∅
    evaluationsByReportID := ∅
    clockReads := 0
    uuidDraws := 0 }

/-- Function `init` of `evaluation.go`, keeping the pointer of the sample evaluation. -/
def init (env : Env) (s : Store) : Store :=
  let createdNow := env.clock s.clockReads
  let s := { s with clockReads := s.clockReads + 1 }
  let updatedNow := env.clock s.clockReads
  let s := { s with clockReads := s.clockReads + 1 }
  let (sample, s) := new
    { ID := "eval-123"
      ReportID := "report-123"
      SecurityScore := 8
      PerformanceScore := 7
      MemoryScore := 6
      TestingScore := 7
      ErrorScore := 8
      LoadScore := 6
      SecurityDetails := "JWT implementation, CSRF protection, input validation, rate limiting"
      PerformanceDetails := "Response caching, lazy loading, code splitting, asset optimization"
      MemoryDetails :=
        "Efficient state management, memory leak prevention, optimized resource loading"
      TestingDetails := "Unit tests, integration tests, e2e tests, API testing"
      ErrorDetails := "Comprehensive validation, error recovery, user feedback, logging"
      LoadDetails := "Handles 500 users/sec, 20MB RAM/user, efficient DB connections"
      EvaluatorID := "user-123"
      CreatedAt := createdNow + (-24) * Hour
      UpdatedAt := updatedNow + (-24) * Hour } s
  [sample].foldl
    (fun s evaluation =>
      { s with
        evaluations := s.evaluations.insert (s.objects evaluation).ID evaluation
        evaluationsByReportID :=
          s.evaluationsByReportID.insert (s.objects evaluation).ReportID evaluation })
    s

/-- The pointer store when the program starts serving: `init` of `evaluation.go`, then
the five clock readings of `init` of `report.go`, which touches no evaluation. -/
def initStore (env : Env) : Store :=
  { init env emptyStore with clockReads := (init env emptyStore).clockReads + 5 }

/-- One call of the sequence: `.save e` is `SaveEvaluation(ctx, &Evaluation{...})` on a
newly built struct with the field values of `e`, as `CreateReport` calls it; `.delete id`
is `DeleteEvaluation(ctx, id)`. -/
def step (env : Env) (op : EvalOp) (s : Store) : Store :=
  match op with
  | .save evaluation =>
    let (p, s) := new evaluation s
    (SaveEvaluation env p s).2
  | .delete id => (DeleteEvaluation id s).2

/-- The pointer store left by a sequence of such calls. -/
def run (env : Env) : List EvalOp → Store → Store
  | [], s => s
  | op :: ops, s => run env ops (step env op s)

/-- Every `SaveEvaluation` of the sequence stores under an ID, given or generated, that
is not a key of the primary map at the time of the call. -/
def freshSaves (env : Env) : List EvalOp → Store → Prop
  | [], _ => True
  | .save evaluation :: ops, s =>
    (if evaluation.ID = "" then env.uuid s.uuidDraws else evaluation.ID) ∉ s.evaluations ∧
      freshSaves env ops (step env (.save evaluation) s)
  | .delete id :: ops, s => freshSaves env ops (step env (.delete id) s)

/-- The sequence contains no `DeleteEvaluation` call. -/
def savesOnly : List EvalOp → Prop
  | [] => True
  | .save _ :: ops => savesOnly ops
  | .delete _ :: _ => False

/-- The pointer store `s` and the world `w` show the same evaluations: every lookup in
either map returns a struct with the contents that the world holds under that key, the
counters agree, and every stored pointer is an address in use. -/
def Sim (s : Store) (w : World) : Prop :=
  (∀ id, (s.evaluations.lookup id).map s.objects = w.evaluations.lookup id) ∧
  (∀ r, (s.evaluationsByReportID.lookup r).map s.objects = w.evaluationsByReportID.lookup r) ∧
  (∀ id p, s.evaluations.lookup id = some p → p < s.allocated) ∧
  (∀ r p, s.evaluationsByReportID.lookup r = some p → p < s.allocated) ∧
  s.clockReads = w.clockReads ∧ s.uuidDraws = w.uuidDraws

end ptr

end models

namespace models

namespace ptr

/-- Every `SaveEvaluation` of the sequence is for a report that no evaluation of the
primary map references at the time of the call. -/
def onePerReport (env : Env) : List EvalOp → Store → Prop
  | [], _ => True
  | .save evaluation :: ops, s =>
    (∀ entry ∈ s.evaluations.entries, (s.objects entry.2).ReportID ≠ evaluation.ReportID) ∧
      onePerReport env ops (step env (.save evaluation) s)
  | .delete id :: ops, s => onePerReport env ops (step env (.delete id) s)

end ptr

end models

/-! ## Sample values used to instantiate the theorems -/

namespace demo

open models

/-- A clock that advances by one second per reading, and the pairwise distinct
identifiers `generated-id-`, `generated-id-x`, `generated-id-xx`, and so on. -/
def env : Env :=
  { clock := fun n => 1700000000000000000 + 1000000000 * (n : Int)
    uuid := fun n => "generated-id-" ++ String.mk (List.replicate n 'x') }

/-- A request context. -/
def ctx : Context := ⟨[]⟩

/-- The start-up world under `demo.env`. -/
def world : World := initWorld env

/-- The draft sample report `report-456` as stored in `demo.world`. -/
def draft456 : Report :=
  { ID := "report-456"
    Title := "API Gateway"
    Description := "Implementation of API Gateway with rate limiting"
    ProjectID := "project-456"
    AuthorID := "user-123"
    DepartmentID := "dept-456"
    Status := "draft"
    CreatedAt := 1700000000000000000 + 1000000000 * 5 + (-24) * Hour
    UpdatedAt := 1700000000000000000 + 1000000000 * 6 + (-12) * Hour
    SubmittedAt := none
    Metadata := [] }

/-- A draft report written by somebody other than the mock caller. -/
def foreignDraft : Report :=
  { ID := "report-789"
    Title := "Billing Export"
    Description := "Nightly export of billing records"
    ProjectID := "project-789"
    AuthorID := "user-456"
    DepartmentID := "dept-789"
    Status := "draft"
    CreatedAt := 1600000000000000000
    UpdatedAt := 1600000000000000000
    SubmittedAt := none
    Metadata := [] }

/-- The start-up world with `foreignDraft` added under its own ID. -/
def worldWithForeign : World :=
  { world with reports := world.reports.insert foreignDraft.ID foreignDraft }

/-- A report with the given ID and status, written by the mock caller. -/
def reportWith (id status : String) : Report :=
  { ID := id
    Title := "Quarterly Review"
    Description := "Review of the quarterly figures"
    ProjectID := "project-123"
    AuthorID := "user-123"
    DepartmentID := "dept-123"
    Status := status
    CreatedAt := 1600000000000000000
    UpdatedAt := 1600000000000000000
    SubmittedAt := if status = "submitted" then some 1600000000000000000 else none
    Metadata := [] }

/-- A report map with two submitted and three draft reports. -/
def fiveReports : GoMap Report :=
  AList.insert "e" (reportWith "e" "draft")
    (AList.insert "d" (reportWith "d" "submitted")
      (AList.insert "c" (reportWith "c" "draft")
        (AList.insert "b" (reportWith "b" "submitted")
          (AList.insert "a" (reportWith "a" "draft") ∅))))

/-- Repository parameters asking for the second draft only. -/
def secondDraft : ListReportsParams :=
  { Status := some "draft", AuthorID := none, ProjectID := none, Limit := 1, Offset := 1 }

/-- An API request with a negative offset and an oversized limit. -/
def oddRequest : api.ListReportsRequest :=
  { Status := none, AuthorID := none, ProjectID := none, Limit := 500, Offset := -3 }

/-- A creation request without evaluation data. -/
def createRequest : api.CreateReportRequest :=
  { Title := "Auth Module Review"
    Description := "Review of the auth module"
    ProjectID := "project-123"
    DepartmentID := "dept-123"
    Evaluation := none
    Metadata := [("priority", ⟨"high"⟩)] }

/-- Evaluation data as sent in a creation request. -/
def evaluationData : api.Evaluation :=
  { SecurityScore := 9
    PerformanceScore := 5
    MemoryScore := 4
    TestingScore := 7
    ErrorScore := 6
    LoadScore := 3
    SecurityDetails := "Token rotation"
    PerformanceDetails := "Cold start is slow"
    MemoryDetails := "Large buffers"
    TestingDetails := "Unit tests only"
    ErrorDetails := "Errors are wrapped"
    LoadDetails := "Not load tested"
    EvaluatorID := "user-999" }

/-- A creation request that carries evaluation data. -/
def createRequestWithEvaluation : api.CreateReportRequest :=
  { createRequest with Evaluation := some evaluationData }

/-- A second evaluation for the sample report `report-123`, with no ID yet. -/
def secondEvaluation : Evaluation :=
  { ID := ""
    ReportID := "report-123"
    SecurityScore := 2
    PerformanceScore := 3
    MemoryScore := 4
    TestingScore := 5
    ErrorScore := 6
    LoadScore := 7
    SecurityDetails := "Second opinion"
    PerformanceDetails := "Second opinion"
    MemoryDetails := "Second opinion"
    TestingDetails := "Second opinion"
    ErrorDetails := "Second opinion"
    LoadDetails := "Second opinion"
    EvaluatorID := "user-456"
    CreatedAt := 1700000000000000000
    UpdatedAt := 1700000000000000000 }

/-- The sample evaluation `eval-123` as stored in `demo.world`. -/
def eval123 : Evaluation :=
  { ID := "eval-123"
    ReportID := "report-123"
    SecurityScore := 8
    PerformanceScore := 7
    MemoryScore := 6
    TestingScore := 7
    ErrorScore := 8
    LoadScore := 6
    SecurityDetails := "JWT implementation, CSRF protection, input validation, rate limiting"
    PerformanceDetails := "Response caching, lazy loading, code splitting, asset optimization"
    MemoryDetails :=
      "Efficient state management, memory leak prevention, optimized resource loading"
    TestingDetails := "Unit tests, integration tests, e2e tests, API testing"
    ErrorDetails := "Comprehensive validation, error recovery, user feedback, logging"
    LoadDetails := "Handles 500 users/sec, 20MB RAM/user, efficient DB connections"
    EvaluatorID := "user-123"
    CreatedAt := 1700000000000000000 + 1000000000 * 0 + (-24) * Hour
    UpdatedAt := 1700000000000000000 + 1000000000 * 1 + (-24) * Hour }

/-- The calls `CreateReport` and then `SubmitReport` on the sample draft. -/
def calls : List api.Op :=
  [.create ctx createRequest, .submit ctx "report-456"]

/-- The sample report `report-456` as stored after `demo.calls`: the submission reads the
clock for the eleventh and twelfth time. -/
def submitted456 : Report :=
  { draft456 with
    Status := "submitted"
    UpdatedAt := 1700000000000000000 + 1000000000 * 11
    SubmittedAt := some (1700000000000000000 + 1000000000 * 10) }

/-- Repository parameters with a negative offset, as a direct caller may pass them. -/
def negativeOffset : ListReportsParams :=
  { Status := none, AuthorID := none, ProjectID := none, Limit := 10, Offset := -1 }

/-- The sample evaluation `eval-123` saved again for another report. -/
def eval123Moved : Evaluation :=
  { eval123 with ReportID := "report-456" }

/-- The world left by `CreateReport` on the request that carries evaluation data. -/
def createdWorld : World :=
  (api.CreateReport env ctx createRequestWithEvaluation world).2

/-- An API listing request without filters. -/
def listAll : api.ListReportsRequest :=
  { Status := none, AuthorID := none, ProjectID := none, Limit := 50, Offset := 0 }

/-- Repository parameters whose sum `Offset + Limit` exceeds the largest `int`. -/
def hugeLimit : ListReportsParams :=
  { Status := none, AuthorID := none, ProjectID := none, Limit := maxInt, Offset := 1 }

/-- The start-up pointer store under `demo.env`; the sample evaluation is at address 0. -/
def store : ptr.Store := ptr.initStore env

/-- The start-up pointer store after the caller, holding the pointer stored under
`eval-123`, has assigned `ReportID = "report-456"` through it. -/
def storeReassigned : ptr.Store :=
  ptr.assign 0 (fun e => { e with ReportID := "report-456" }) store

end demo

/-! ## Verified properties -/

namespace models

theorem GetReportByID_eq_ok {id : String} {w : World} {r : Report} :
    GetReportByID id w = .ok r ↔ w.reports.lookup id = some r := by
  unfold GetReportByID
  cases h : w.reports.lookup id <;> simp

theorem GetReportByID_eq_error {id : String} {w : World} {e : Error} :
    GetReportByID id w = .error e ↔ w.reports.lookup id = none ∧ e = .ErrReportNotFound := by
  unfold GetReportByID
  cases h : w.reports.lookup id <;> simp [eq_comm]

theorem wellKeyed_empty : WellKeyed ∅ := by
  intro k r h
  simp at h

theorem wellKeyed_insert {m : GoMap Report} {k : String} {r : Report}
    (hm : WellKeyed m) (hk : r.ID = k) (hne : k ≠ "") : WellKeyed (m.insert k r) := by
  intro k' r' h
  by_cases hkk : k' = k
  · subst hkk
    rw [AList.lookup_insert] at h
    cases h
    exact ⟨hk, hne⟩
  · rw [AList.lookup_insert_ne hkk] at h
    exact hm k' r' h

/-- The start-up report map stores each sample report under its own ID. -/
theorem initWorld_wellKeyed (env : Env) : WellKeyed (initWorld env).reports := by
  simp only [initWorld, initReports, initEvaluations, emptyWorld, timeNow, List.foldl]
  exact wellKeyed_insert (wellKeyed_insert wellKeyed_empty rfl (by decide)) rfl (by decide)

end models

namespace api

open models

theorem SubmitReport_of_draft (env : Env) (ctx : Context) (id : String) (w : World)
    (r : models.Report) (hget : w.reports.lookup id = some r)
    (hauthor : r.AuthorID = "user-123") (hdraft : r.Status = "draft") (hid : r.ID ≠ "") :
    SubmitReport env ctx id w =
      ⟨.ok (convertModelToAPIReport (submittedForm env w r)
          (joinedEvaluation r.ID (submittedWorld env w r))),
        submittedWorld env w r,
        some (submitToDepartment (submittedForm env w r)
          (joinedEvaluation r.ID (submittedWorld env w r)) (submittedWorld env w r))⟩ := by
  simp [SubmitReport, GetUserIDFromContext, GetReportByID, hget, hauthor, hdraft, SaveReport,
    timeNow, hid, submittedForm, submittedWorld]

/-- Whenever `SubmitReport` answers without error, the loaded report was a draft of the
mock caller, whatever the shape of the store. -/
theorem SubmitReport_ok_inv (env : Env) (ctx : Context) (id : String) (w : World)
    (resp : Report) (hok : (SubmitReport env ctx id w).response = .ok resp) :
    ∃ r, w.reports.lookup id = some r ∧ r.AuthorID = "user-123" ∧ r.Status = "draft" := by
  cases hget : w.reports.lookup id with
  | none => simp [SubmitReport, GetUserIDFromContext, GetReportByID, hget] at hok
  | some r =>
    refine ⟨r, rfl, ?_⟩
    by_cases ha : r.AuthorID = "user-123"
    · by_cases hd : r.Status = "draft"
      · exact ⟨ha, hd⟩
      · simp [SubmitReport, GetUserIDFromContext, GetReportByID, hget, ha, hd] at hok
    · simp [SubmitReport, GetUserIDFromContext, GetReportByID, hget, ha] at hok

/-- When `SubmitReport` answers with an error the world is the one it was given and no
delivery is started. -/
theorem SubmitReport_error_world (env : Env) (ctx : Context) (id : String) (w : World)
    (e : errs.Error) (herr : (SubmitReport env ctx id w).response = .error e) :
    (SubmitReport env ctx id w).world = w ∧ (SubmitReport env ctx id w).delivery = none := by
  cases hget : w.reports.lookup id with
  | none => simp [SubmitReport, GetUserIDFromContext, GetReportByID, hget]
  | some r =>
    by_cases ha : r.AuthorID = "user-123"
    · by_cases hd : r.Status = "draft"
      · simp [SubmitReport, GetUserIDFromContext, GetReportByID, hget, ha, hd, SaveReport]
          at herr
      · simp [SubmitReport, GetUserIDFromContext, GetReportByID, hget, ha, hd]
    · simp [SubmitReport, GetUserIDFromContext, GetReportByID, hget, ha]

/-- C1. For a stored report whose author is the caller, `SubmitReport` succeeds exactly
when the report's status before the call is "draft"; with any other status it answers
InvalidArgument. -/
theorem submitReport_succeeds_iff_draft (env : Env) (ctx : Context) (caller id : String)
    (w : World) (r : models.Report)
    (hauth : GetUserIDFromContext ctx = .ok caller)
    (hget : GetReportByID id w = .ok r) (hauthor : r.AuthorID = caller) :
    ((∃ resp, (SubmitReport env ctx id w).response = .ok resp) ↔ r.Status = "draft") ∧
    (r.Status ≠ "draft" →
      ∃ msg, (SubmitReport env ctx id w).response = .error ⟨.InvalidArgument, msg⟩) := by
  rw [GetReportByID_eq_ok] at hget
  simp only [GetUserIDFromContext, Except.ok.injEq] at hauth
  subst hauth
  by_cases hd : r.Status = "draft"
  · simp [SubmitReport, GetUserIDFromContext, GetReportByID, hget, hauthor, hd, SaveReport]
  · simp [SubmitReport, GetUserIDFromContext, GetReportByID, hget, hauthor, hd,
      errs.InvalidArgument]

theorem submitReport_succeeds_iff_draft_witness :
    ((∃ resp, (SubmitReport demo.env demo.ctx "report-456" demo.world).response = .ok resp) ↔
        demo.draft456.Status = "draft") ∧
    (demo.draft456.Status ≠ "draft" →
      ∃ msg, (SubmitReport demo.env demo.ctx "report-456" demo.world).response =
        .error ⟨.InvalidArgument, msg⟩) :=
  submitReport_succeeds_iff_draft demo.env demo.ctx "user-123" "report-456" demo.world
    demo.draft456 rfl rfl rfl

/-- C2. For a stored report whose author is not the caller, `SubmitReport` answers
PermissionDenied whatever the report's status, starts no delivery, and returns the world it
was given: the report map, both evaluation maps and the stored report are unchanged. -/
theorem submitReport_not_author (env : Env) (ctx : Context) (caller id : String)
    (w : World) (r : models.Report)
    (hauth : GetUserIDFromContext ctx = .ok caller)
    (hget : GetReportByID id w = .ok r) (hother : r.AuthorID ≠ caller) :
    (∃ msg, (SubmitReport env ctx id w).response = .error ⟨.PermissionDenied, msg⟩) ∧
    (SubmitReport env ctx id w).world = w ∧
    (SubmitReport env ctx id w).world.reports = w.reports ∧
    (SubmitReport env ctx id w).world.evaluations = w.evaluations ∧
    (SubmitReport env ctx id w).world.evaluationsByReportID = w.evaluationsByReportID ∧
    GetReportByID id (SubmitReport env ctx id w).world = .ok r ∧
    (SubmitReport env ctx id w).delivery = none := by
  have hget' := hget
  rw [GetReportByID_eq_ok] at hget
  simp only [GetUserIDFromContext, Except.ok.injEq] at hauth
  subst hauth
  simp [SubmitReport, GetUserIDFromContext, GetReportByID, hget, hother, errs.Permission]

theorem submitReport_not_author_witness :
    (∃ msg, (SubmitReport demo.env demo.ctx "report-789" demo.worldWithForeign).response =
      .error ⟨.PermissionDenied, msg⟩) ∧
    (SubmitReport demo.env demo.ctx "report-789" demo.worldWithForeign).world =
      demo.worldWithForeign :=
  have h := submitReport_not_author demo.env demo.ctx "user-123" "report-789"
    demo.worldWithForeign demo.foreignDraft rfl rfl (by decide)
  ⟨h.1, h.2.1⟩

/-- C5. For an id that is not a key of the report map, `SubmitReport` answers NotFound,
starts no delivery and returns the world it was given, so that no report exists under
that id afterwards and the evaluation maps are unchanged. -/
theorem submitReport_absent (env : Env) (ctx : Context) (id : String) (w : World)
    (habsent : id ∉ w.reports) :
    (∃ msg, (SubmitReport env ctx id w).response = .error ⟨.NotFound, msg⟩) ∧
    (SubmitReport env ctx id w).world = w ∧
    (SubmitReport env ctx id w).world.reports = w.reports ∧
    (SubmitReport env ctx id w).world.evaluations = w.evaluations ∧
    (SubmitReport env ctx id w).world.evaluationsByReportID = w.evaluationsByReportID ∧
    id ∉ (SubmitReport env ctx id w).world.reports ∧
    (SubmitReport env ctx id w).delivery = none := by
  have hnone : w.reports.lookup id = none := AList.lookup_eq_none.mpr habsent
  simp [SubmitReport, GetUserIDFromContext, GetReportByID, hnone, errs.NotFound, habsent]

theorem submitReport_absent_witness :
    (∃ msg, (SubmitReport demo.env demo.ctx "report-000" demo.world).response =
      .error ⟨.NotFound, msg⟩) ∧
    (SubmitReport demo.env demo.ctx "report-000" demo.world).world = demo.world :=
  have h := submitReport_absent demo.env demo.ctx "report-000" demo.world (by decide)
  ⟨h.1, h.2.1⟩

/-- C3. Two consecutive `SubmitReport` calls on a stored draft of the caller: the first
succeeds, the second answers InvalidArgument and returns the world the first one left, in
which the report has status "submitted", `SubmittedAt` equal to the first clock reading of
the first call and `UpdatedAt` equal to its second reading. -/
theorem submitReport_twice (env : Env) (ctx : Context) (caller id : String) (w : World)
    (r : models.Report)
    (hkeys : WellKeyed w.reports)
    (hauth : GetUserIDFromContext ctx = .ok caller)
    (hget : GetReportByID id w = .ok r) (hauthor : r.AuthorID = caller)
    (hdraft : r.Status = "draft") :
    r.ID = id ∧
    (∃ resp, (SubmitReport env ctx id w).response = .ok resp) ∧
    (∃ msg, (SubmitReport env ctx id (SubmitReport env ctx id w).world).response =
      .error ⟨.InvalidArgument, msg⟩) ∧
    (SubmitReport env ctx id (SubmitReport env ctx id w).world).world =
      (SubmitReport env ctx id w).world ∧
    ∃ stored,
      GetReportByID id (SubmitReport env ctx id w).world = .ok stored ∧
      GetReportByID id (SubmitReport env ctx id (SubmitReport env ctx id w).world).world =
        .ok stored ∧
      stored.Status = "submitted" ∧
      stored.SubmittedAt = some (env.clock w.clockReads) ∧
      stored.UpdatedAt = env.clock (w.clockReads + 1) := by
  rw [GetReportByID_eq_ok] at hget
  simp only [GetUserIDFromContext, Except.ok.injEq] at hauth
  subst hauth
  obtain ⟨hid, hne⟩ := hkeys id r hget
  subst hid
  have hfirst := SubmitReport_of_draft env ctx r.ID w r hget hauthor hdraft hne
  have hstored : (submittedWorld env w r).reports.lookup r.ID = some (submittedForm env w r) := by
    simp [submittedWorld]
  have hsecond : (SubmitReport env ctx r.ID (submittedWorld env w r)).response =
      .error ⟨.InvalidArgument, "report is already submitted"⟩ := by
    simp [SubmitReport, GetUserIDFromContext, GetReportByID, hstored, submittedForm, hauthor,
      errs.InvalidArgument]
  have hworld := (SubmitReport_error_world env ctx r.ID (submittedWorld env w r) _ hsecond).1
  rw [hfirst]
  refine ⟨rfl, ⟨_, rfl⟩, ⟨_, hsecond⟩, hworld, submittedForm env w r, ?_, ?_, rfl, rfl, rfl⟩
  · exact GetReportByID_eq_ok.mpr hstored
  · rw [hworld]
    exact GetReportByID_eq_ok.mpr hstored

theorem submitReport_twice_witness :
    (∃ resp, (SubmitReport demo.env demo.ctx "report-456" demo.world).response = .ok resp) ∧
    (∃ msg, (SubmitReport demo.env demo.ctx "report-456"
        (SubmitReport demo.env demo.ctx "report-456" demo.world).world).response =
      .error ⟨.InvalidArgument, msg⟩) :=
  have h := submitReport_twice demo.env demo.ctx "user-123" "report-456" demo.world
    demo.draft456 (initWorld_wellKeyed demo.env) rfl rfl rfl rfl
  ⟨h.2.1, h.2.2.1⟩

/-- C4. After a successful `SubmitReport` on a well-keyed report map, `GetReportByID`
returns the report with status "submitted" and a non-nil `SubmittedAt`; its ID, title,
description, project, author, department, creation time and metadata are those it had
before the call; every other key of the report map and both evaluation maps are
unchanged; and the report in the response has the field values of the stored one. -/
theorem submitReport_frame (env : Env) (ctx : Context) (id : String) (w : World)
    (resp : Report)
    (hkeys : WellKeyed w.reports)
    (hok : (SubmitReport env ctx id w).response = .ok resp) :
    ∃ before after,
      GetReportByID id w = .ok before ∧
      GetReportByID id (SubmitReport env ctx id w).world = .ok after ∧
      after.Status = "submitted" ∧ after.SubmittedAt ≠ none ∧
      after.ID = before.ID ∧ after.Title = before.Title ∧
      after.Description = before.Description ∧ after.ProjectID = before.ProjectID ∧
      after.AuthorID = before.AuthorID ∧ after.DepartmentID = before.DepartmentID ∧
      after.CreatedAt = before.CreatedAt ∧ after.Metadata = before.Metadata ∧
      (∀ k, k ≠ id →
        (SubmitReport env ctx id w).world.reports.lookup k = w.reports.lookup k) ∧
      (SubmitReport env ctx id w).world.evaluations = w.evaluations ∧
      (SubmitReport env ctx id w).world.evaluationsByReportID = w.evaluationsByReportID ∧
      resp.ID = after.ID ∧ resp.Title = after.Title ∧
      resp.Description = after.Description ∧ resp.ProjectID = after.ProjectID ∧
      resp.AuthorID = after.AuthorID ∧ resp.DepartmentID = after.DepartmentID ∧
      resp.Status = after.Status ∧ resp.CreatedAt = after.CreatedAt ∧
      resp.UpdatedAt = after.UpdatedAt ∧ resp.SubmittedAt = after.SubmittedAt ∧
      resp.Metadata = after.Metadata := by
  obtain ⟨r, hget, hauthor, hdraft⟩ := SubmitReport_ok_inv env ctx id w resp hok
  obtain ⟨hid, hne⟩ := hkeys id r hget
  subst hid
  have hfirst := SubmitReport_of_draft env ctx r.ID w r hget hauthor hdraft hne
  rw [hfirst] at hok ⊢
  simp only [Except.ok.injEq] at hok
  subst hok
  refine ⟨r, submittedForm env w r, GetReportByID_eq_ok.mpr hget, ?_, rfl, ?_, rfl, rfl, rfl,
    rfl, rfl, rfl, rfl, rfl, ?_, rfl, rfl, rfl, rfl, rfl, rfl, rfl, rfl, rfl, rfl, rfl, rfl,
    rfl⟩
  · exact GetReportByID_eq_ok.mpr (by simp [submittedWorld])
  · simp [submittedForm]
  · intro k hk
    simp [submittedWorld, AList.lookup_insert_ne hk]

theorem submitReport_frame_witness :
    ∃ before after,
      GetReportByID "report-456" demo.world = .ok before ∧
      GetReportByID "report-456"
        (SubmitReport demo.env demo.ctx "report-456" demo.world).world = .ok after ∧
      after.Status = "submitted" ∧ after.SubmittedAt ≠ none ∧ after.ID = before.ID :=
  have ⟨before, after, h1, h2, h3, h4, h5, _⟩ :=
    submitReport_frame demo.env demo.ctx "report-456" demo.world
      (convertModelToAPIReport (submittedForm demo.env demo.world demo.draft456) none)
      (initWorld_wellKeyed demo.env) rfl
  ⟨before, after, h1, h2, h3, h4, h5⟩

theorem CreateReport_response (env : Env) (ctx : Context) (req : CreateReportRequest)
    (w : World) :
    (CreateReport env ctx req w).1 =
      .ok (convertModelToAPIReport (createdReport env w req) req.Evaluation) := by
  simp [CreateReport, GetUserIDFromContext, SaveReport, timeNow, newUUID, createdReport]

theorem CreateReport_reports (env : Env) (ctx : Context) (req : CreateReportRequest)
    (w : World) :
    (CreateReport env ctx req w).2.reports =
      w.reports.insert (env.uuid w.uuidDraws) (createdReport env w req) := by
  cases he : req.Evaluation <;>
    simp [CreateReport, GetUserIDFromContext, SaveReport, SaveEvaluation, timeNow, newUUID,
      createdReport, he]

/-- Every step keeps the report map well keyed, provided the identifier it may generate is
not the empty string. -/
theorem step_wellKeyed (env : Env) (op : Op) (w : World)
    (hkeys : WellKeyed w.reports) (huuid : env.uuid w.uuidDraws ≠ "") :
    WellKeyed (step env op w).reports := by
  cases op with
  | create ctx req =>
    simp only [step, CreateReport_reports]
    exact wellKeyed_insert hkeys rfl huuid
  | list ctx req visit => exact hkeys
  | submit ctx id =>
    simp only [step]
    cases hresp : (SubmitReport env ctx id w).response with
    | error e =>
      rw [(SubmitReport_error_world env ctx id w e hresp).1]
      exact hkeys
    | ok resp =>
      obtain ⟨r0, hget, hauthor, hdraft⟩ := SubmitReport_ok_inv env ctx id w resp hresp
      obtain ⟨hid, hne⟩ := hkeys id r0 hget
      subst hid
      rw [SubmitReport_of_draft env ctx r0.ID w r0 hget hauthor hdraft hne]
      exact wellKeyed_insert hkeys rfl hne

/-- What one step does to the report map: old entries stay, with their status kept or
moved from "draft" to "submitted" by a successful `SubmitReport` on their key; new entries
are drafts. -/
theorem step_reports (env : Env) (op : Op) (w : World)
    (hkeys : WellKeyed w.reports)
    (hfresh : env.uuid w.uuidDraws ∉ w.reports) :
    (∀ k r, w.reports.lookup k = some r →
      ∃ r', (step env op w).reports.lookup k = some r' ∧
        (r'.Status = r.Status ∨
          (r.Status = "draft" ∧ r'.Status = "submitted" ∧ succeeds env op w = true ∧
            ∃ ctx, op = .submit ctx k))) ∧
    (∀ k r', (step env op w).reports.lookup k = some r' → w.reports.lookup k = none →
      r'.Status = "draft") := by
  cases op with
  | create ctx req =>
    simp only [step, CreateReport_reports]
    constructor
    · intro k r hk
      have hne : k ≠ env.uuid w.uuidDraws := by
        intro h
        subst h
        exact hfresh (AList.lookup_isSome.mp (by simp [hk]))
      exact ⟨r, by rw [AList.lookup_insert_ne hne]; exact hk, Or.inl rfl⟩
    · intro k r' hk hnone
      by_cases hne : k = env.uuid w.uuidDraws
      · subst hne
        rw [AList.lookup_insert] at hk
        cases hk
        rfl
      · rw [AList.lookup_insert_ne hne, hnone] at hk
        cases hk
  | list ctx req visit =>
    simp only [step]
    exact ⟨fun k r hk => ⟨r, hk, Or.inl rfl⟩, fun k r' hk hnone => by simp [hnone] at hk⟩
  | submit ctx id =>
    simp only [step]
    cases hresp : (SubmitReport env ctx id w).response with
    | error e =>
      rw [(SubmitReport_error_world env ctx id w e hresp).1]
      exact ⟨fun k r hk => ⟨r, hk, Or.inl rfl⟩, fun k r' hk hnone => by simp [hnone] at hk⟩
    | ok resp =>
      obtain ⟨r0, hget, hauthor, hdraft⟩ := SubmitReport_ok_inv env ctx id w resp hresp
      obtain ⟨hid, hne⟩ := hkeys id r0 hget
      subst hid
      have hsucc : succeeds env (.submit ctx r0.ID) w = true := by
        simp [succeeds, hresp, Except.isOk, Except.toBool]
      rw [SubmitReport_of_draft env ctx r0.ID w r0 hget hauthor hdraft hne]
      simp only [submittedWorld]
      constructor
      · intro k r hk
        by_cases hkk : k = r0.ID
        · subst hkk
          rw [hget] at hk
          cases hk
          exact ⟨submittedForm env w r0, AList.lookup_insert _,
            Or.inr ⟨hdraft, rfl, hsucc, ctx, rfl⟩⟩
        · exact ⟨r, by rw [AList.lookup_insert_ne hkk]; exact hk, Or.inl rfl⟩
      · intro k r' hk hnone
        by_cases hkk : k = r0.ID
        · subst hkk
          rw [hget] at hnone
          cases hnone
        · rw [AList.lookup_insert_ne hkk, hnone] at hk
          cases hk

/-- The number of identifiers drawn never decreases, and a key that a step adds to the
report map is the identifier drawn first by that step. -/
theorem step_keys (env : Env) (op : Op) (w : World) (hkeys : WellKeyed w.reports) :
    w.uuidDraws ≤ (step env op w).uuidDraws ∧
    ∀ k, k ∈ (step env op w).reports →
      k ∈ w.reports ∨ (k = env.uuid w.uuidDraws ∧ w.uuidDraws < (step env op w).uuidDraws) := by
  cases op with
  | create ctx req =>
    have hdraws : w.uuidDraws < (CreateReport env ctx req w).2.uuidDraws := by
      cases he : req.Evaluation <;>
        simp only [CreateReport, GetUserIDFromContext, SaveReport, SaveEvaluation, timeNow,
          newUUID, he, if_true] <;>
        omega
    refine ⟨hdraws.le, fun k hk => ?_⟩
    simp only [step, CreateReport_reports, AList.mem_insert] at hk
    rcases hk with hk | hk
    · exact Or.inr ⟨hk, hdraws⟩
    · exact Or.inl hk
  | list ctx req visit => exact ⟨le_rfl, fun k hk => Or.inl hk⟩
  | submit ctx id =>
    simp only [step]
    cases hresp : (SubmitReport env ctx id w).response with
    | error e =>
      rw [(SubmitReport_error_world env ctx id w e hresp).1]
      exact ⟨le_rfl, fun k hk => Or.inl hk⟩
    | ok resp =>
      obtain ⟨r0, hget, hauthor, hdraft⟩ := SubmitReport_ok_inv env ctx id w resp hresp
      obtain ⟨hid, hne⟩ := hkeys id r0 hget
      subst hid
      rw [SubmitReport_of_draft env ctx r0.ID w r0 hget hauthor hdraft hne]
      refine ⟨le_rfl, fun k hk => Or.inl ?_⟩
      simp only [submittedWorld, AList.mem_insert] at hk
      rcases hk with hk | hk
      · rw [hk]
        exact AList.lookup_isSome.mp (by simp [hget])
      · exact hk

/-- The contract of the identifier generator is kept by every step. -/
theorem step_freshIDs (env : Env) (op : Op) (w : World) (hkeys : WellKeyed w.reports)
    (hfresh : FreshIDs env w) : FreshIDs env (step env op w) := by
  obtain ⟨hle, hnew⟩ := step_keys env op w hkeys
  refine ⟨fun n hn => ⟨(hfresh.1 n (hle.trans hn)).1, fun hmem => ?_⟩,
    fun m n hm hmn => hfresh.2 m n (hle.trans hm) hmn⟩
  rcases hnew _ hmem with hold | ⟨heq, hlt⟩
  · exact (hfresh.1 n (hle.trans hn)).2 hold
  · exact hfresh.2 w.uuidDraws n le_rfl (lt_of_lt_of_le hlt hn) heq.symm

/-- Over any sequence of API calls, started from a well-keyed report map with a generator
that never returns the empty string, an existing key or a repeated value, every report
present at the start is still present at the end, with its status kept or moved from
"draft" to "submitted". -/
theorem status_run (env : Env) (ops : List Op) :
    ∀ w : World, WellKeyed w.reports → FreshIDs env w →
      ∀ k r, w.reports.lookup k = some r →
        ∃ r', (run env ops w).reports.lookup k = some r' ∧
          (r'.Status = r.Status ∨ (r.Status = "draft" ∧ r'.Status = "submitted")) := by
  induction ops with
  | nil =>
    intro w _ _ k r hk
    exact ⟨r, hk, Or.inl rfl⟩
  | cons op ops ih =>
    intro w hkeys hfresh k r hk
    have hdrawn := hfresh.1 w.uuidDraws le_rfl
    obtain ⟨r1, hk1, h1⟩ := (step_reports env op w hkeys hdrawn.2).1 k r hk
    obtain ⟨r2, hk2, h2⟩ :=
      ih (step env op w) (step_wellKeyed env op w hkeys hdrawn.1)
        (step_freshIDs env op w hkeys hfresh) k r1 hk1
    refine ⟨r2, hk2, ?_⟩
    rcases h1 with h1 | ⟨h1, h1', _⟩
    · rw [h1] at h2
      exact h2
    · rcases h2 with h2 | ⟨h2, _⟩
      · exact Or.inr ⟨h1, by rw [h2, h1']⟩
      · rw [h1'] at h2
        exact absurd h2 (by decide)

theorem demo_uuid_length (n : Nat) : (demo.env.uuid n).length = 13 + n := by
  simp only [demo.env, String.length_append, String.length_mk, List.length_replicate]
  rfl

/-- The sample generator meets the contract at start-up, so `status_run` applies to every
sequence of calls made from the start-up world. -/
theorem demo_freshIDs : FreshIDs demo.env demo.world := by
  refine ⟨fun n _ => ⟨fun h => ?_, fun hmem => ?_⟩, fun m n _ hmn heq => ?_⟩
  · have hlen := demo_uuid_length n
    rw [h] at hlen
    have h0 : "".length = 0 := rfl
    omega
  · have hkeys : demo.world.reports.keys = ["report-456", "report-123"] := by decide
    rw [AList.mem_keys, hkeys] at hmem
    have hlen := demo_uuid_length n
    simp only [List.mem_cons, List.mem_singleton, List.not_mem_nil, or_false] at hmem
    rcases hmem with h | h <;>
    · rw [h] at hlen
      have h10 : ("report-456".length = 10) ∧ ("report-123".length = 10) := by decide
      omega
  · have hm := demo_uuid_length m
    have hn := demo_uuid_length n
    rw [heq] at hm
    omega

/-- C6. One step of `CreateReport`, `ListReports` or `SubmitReport`, taken from a
well-keyed report map with a generated identifier that is not yet a key: every report
present before the step is still present and either keeps its status or goes from "draft"
to "submitted", the latter only when the step is a successful `SubmitReport` on that
report's id; every report added by the step has status "draft"; so a "submitted" report
stays "submitted" and no report becomes "approved" or "rejected". -/
theorem status_step (env : Env) (op : Op) (w : World)
    (hkeys : WellKeyed w.reports)
    (hfresh : env.uuid w.uuidDraws ∉ w.reports) :
    (∀ k r, w.reports.lookup k = some r →
      ∃ r', (step env op w).reports.lookup k = some r' ∧
        (r'.Status = r.Status ∨
          (r.Status = "draft" ∧ r'.Status = "submitted" ∧ succeeds env op w = true ∧
            ∃ ctx, op = .submit ctx k))) ∧
    (∀ k r', (step env op w).reports.lookup k = some r' → w.reports.lookup k = none →
      r'.Status = "draft") ∧
    (∀ k r r', w.reports.lookup k = some r → (step env op w).reports.lookup k = some r' →
      r.Status = "submitted" → r'.Status = "submitted") ∧
    (∀ k r r', w.reports.lookup k = some r → (step env op w).reports.lookup k = some r' →
      r'.Status = "approved" ∨ r'.Status = "rejected" → r.Status = r'.Status) := by
  have main := step_reports env op w hkeys hfresh
  refine ⟨main.1, main.2, ?_, ?_⟩
  · intro k r r' hk hk' hsub
    obtain ⟨r'', hk'', hcase⟩ := main.1 k r hk
    rw [hk'] at hk''
    cases hk''
    rcases hcase with h | ⟨h, _⟩
    · rw [h, hsub]
    · rw [hsub] at h
      exact absurd h (by decide)
  · intro k r r' hk hk' hfinal
    obtain ⟨r'', hk'', hcase⟩ := main.1 k r hk
    rw [hk'] at hk''
    cases hk''
    rcases hcase with h | ⟨_, h, _⟩
    · exact h.symm
    · rw [h] at hfinal
      rcases hfinal with h' | h' <;> exact absurd h' (by decide)

theorem status_step_witness :
    ∃ r', (step demo.env (.submit demo.ctx "report-456") demo.world).reports.lookup
        "report-456" = some r' ∧
      (r'.Status = demo.draft456.Status ∨
        (demo.draft456.Status = "draft" ∧ r'.Status = "submitted" ∧
          succeeds demo.env (.submit demo.ctx "report-456") demo.world = true ∧
          ∃ ctx, Op.submit demo.ctx "report-456" = Op.submit ctx "report-456")) :=
  (status_step demo.env (.submit demo.ctx "report-456") demo.world
    (initWorld_wellKeyed demo.env) (by decide)).1 "report-456" demo.draft456 rfl

end api

namespace models

theorem skips_eq_false {filter : Option String} {field : String} :
    skips filter field = false ↔ (filter = none ∨ filter = some field) := by
  cases filter with
  | none => simp [skips]
  | some v =>
    simp only [skips, bne_eq_false_iff_eq, Option.some.injEq]
    constructor
    · intro h
      exact Or.inr h.symm
    · rintro (h | h)
      · cases h
      · exact h.symm

/-- The loop of `ListReports` keeps exactly the reports that agree with every non-nil
filter field. -/
theorem retained_iff (params : ListReportsParams) (r : Report) :
    retained params r = true ↔ Matches params r := by
  simp only [retained, Matches, Bool.and_eq_true, Bool.not_eq_true', skips_eq_false, and_assoc]

/-- Whatever the order of the scan, the match list has as many elements as the store has
matching reports. -/
theorem length_result (m : GoMap Report) (visit : List (String × Report))
    (params : ListReportsParams) (hvisit : visit.Perm (entriesOf m)) :
    ((visit.map Prod.snd).filter (retained params)).length = matchCount m params := by
  rw [← List.countP_eq_length_filter, List.countP_map, hvisit.countP_eq, matchCount]
  congr 1
  funext e
  simp only [Function.comp, Bool.decide_eq_true]
  rw [Bool.eq_iff_iff]
  simp [retained_iff]

theorem goSlice_length {α : Type} (s : List α) (lo hi : Int) (h0 : 0 ≤ lo) (h1 : lo ≤ hi)
    (h2 : hi ≤ (s.length : Int)) :
    ∃ page, goSlice s lo hi = some page ∧ (page.length : Int) = hi - lo := by
  refine ⟨_, if_pos ⟨h0, h1, h2⟩, ?_⟩
  simp only [List.length_take, List.length_drop]
  omega

theorem goSlice_eq_some {α : Type} {s page : List α} {lo hi : Int}
    (h : goSlice s lo hi = some page) :
    page = (s.drop lo.toNat).take (hi.toNat - lo.toNat) := by
  unfold goSlice at h
  split at h
  · simp only [Option.some.injEq] at h
    exact h.symm
  · cases h

/-- With a non-negative offset and a non-negative limit `ListReports` does not panic; the
page has `min(Limit, max(0, len(result) - Offset))` elements and the total is
`len(result)`. -/
theorem ListReports_of_valid (visit : List (String × Report)) (params : ListReportsParams)
    (hoffset : 0 ≤ params.Offset) (hlimit : 0 ≤ params.Limit) :
    ∃ page,
      ListReports visit params =
        some (page, (((visit.map Prod.snd).filter (retained params)).length : Int)) ∧
      (page.length : Int) =
        min params.Limit
          (max 0 ((((visit.map Prod.snd).filter (retained params)).length : Int)
            - params.Offset)) := by
  unfold ListReports
  generalize (visit.map Prod.snd).filter (retained params) = result
  by_cases hge : params.Offset ≥ (result.length : Int)
  · refine ⟨[], by simp [hge], ?_⟩
    simp
    omega
  · have hlt : params.Offset < (result.length : Int) := not_le.mp hge
    simp only [hge, if_false]
    by_cases hend : params.Offset + params.Limit > (result.length : Int)
    · simp only [hend, if_true]
      obtain ⟨page, hpage, hl⟩ :=
        goSlice_length result params.Offset result.length hoffset hlt.le le_rfl
      refine ⟨page, by simp [hpage], ?_⟩
      rw [hl]
      omega
    · simp only [hend, if_false]
      obtain ⟨page, hpage, hl⟩ :=
        goSlice_length result params.Offset (params.Offset + params.Limit) hoffset
          (by omega) (by omega)
      refine ⟨page, by simp [hpage], ?_⟩
      rw [hl]
      omega

/-- Whenever `ListReports` returns, the total is the length of the match list and the page
is a run of consecutive elements of it. -/
theorem ListReports_some {visit : List (String × Report)} {params : ListReportsParams}
    {page : List Report} {total : Int} (h : ListReports visit params = some (page, total)) :
    total = (((visit.map Prod.snd).filter (retained params)).length : Int) ∧
    ∃ a b, page = (((visit.map Prod.snd).filter (retained params)).drop a).take b := by
  unfold ListReports at h
  simp only at h
  split at h
  · simp only [Option.some.injEq, Prod.mk.injEq] at h
    exact ⟨h.2.symm, 0, 0, by simp [h.1.symm]⟩
  · simp only [Option.map_eq_some'] at h
    obtain ⟨pg, hpg, heq⟩ := h
    simp only [Prod.mk.injEq] at heq
    exact ⟨heq.2.symm, _, _, by rw [← heq.1]; exact goSlice_eq_some hpg⟩

/-- C7. When `M` stored reports match the filter, `ListReports` with offset `O ≥ 0` and
limit `L ≥ 1` (in particular `1 ≤ L ≤ 100`) returns, for every order of the scan, a page of
exactly `min(L, max(0, M - O))` reports and the total `M`; when `O ≥ M` the page is empty
and the total is still `M`. -/
theorem listReports_page_length (m : GoMap Report) (visit : List (String × Report))
    (params : ListReportsParams) (hvisit : visit.Perm (entriesOf m))
    (hoffset : 0 ≤ params.Offset) (hlimit : 1 ≤ params.Limit) :
    ∃ page, ListReports visit params = some (page, (matchCount m params : Int)) ∧
      (page.length : Int) =
        min params.Limit (max 0 ((matchCount m params : Int) - params.Offset)) ∧
      ((matchCount m params : Int) ≤ params.Offset → page = []) := by
  obtain ⟨page, hpage, hl⟩ := ListReports_of_valid visit params hoffset (by omega)
  rw [length_result m visit params hvisit] at hpage hl
  refine ⟨page, hpage, hl, fun hge => ?_⟩
  have h0 : (page.length : Int) = 0 := by
    rw [hl]
    omega
  exact List.length_eq_zero.mp (by exact_mod_cast h0)

theorem listReports_page_length_witness :
    ∃ page, ListReports (entriesOf demo.fiveReports) demo.secondDraft =
        some (page, (matchCount demo.fiveReports demo.secondDraft : Int)) ∧
      (page.length : Int) = min 1 (max 0 ((matchCount demo.fiveReports demo.secondDraft : Int) - 1)) ∧
      ((matchCount demo.fiveReports demo.secondDraft : Int) ≤ 1 → page = []) :=
  listReports_page_length demo.fiveReports (entriesOf demo.fiveReports) demo.secondDraft
    (List.Perm.refl _) (by decide) (by decide)

end models

namespace api

open models

/-- The parameters that `ListReports` hands to the repository are always within bounds. -/
theorem listParams_valid (req : ListReportsRequest) :
    0 ≤ (listParams req).Offset ∧ 1 ≤ (listParams req).Limit ∧ (listParams req).Limit ≤ 100 := by
  simp only [listParams]
  refine ⟨?_, ?_, ?_⟩
  · split <;> omega
  · split <;> omega
  · split <;> omega

/-- The response of `ListReports` in terms of the repository call it makes. -/
theorem ListReports_eq (ctx : Context) (req : ListReportsRequest)
    (visit : List (String × models.Report)) (w : World) :
    ∃ page,
      models.ListReports visit (listParams req) =
        some (page, (((visit.map Prod.snd).filter (retained (listParams req))).length : Int)) ∧
      ListReports ctx req visit w =
        some (.ok
          { Reports := page.map (fun report =>
              convertModelToAPIReport report (joinedEvaluation report.ID w))
            Total := (((visit.map Prod.snd).filter (retained (listParams req))).length : Int) }) ∧
      (page.length : Int) =
        min (listParams req).Limit
          (max 0 ((((visit.map Prod.snd).filter (retained (listParams req))).length : Int)
            - (listParams req).Offset)) := by
  obtain ⟨h0, h1, -⟩ := listParams_valid req
  obtain ⟨page, hpage, hl⟩ := ListReports_of_valid visit (listParams req) h0 (by omega)
  exact ⟨page, hpage, by simp [ListReports, GetUserIDFromContext, hpage], hl⟩

/-- C9. The API `ListReports` calls the repository with limit `req.Limit` when
`1 ≤ req.Limit ≤ 100` and 50 otherwise, with offset `max(0, req.Offset)` and with the
request's filters; the call never panics, its response holds at most 100 reports, and a
request with a negative offset yields the same total and the same page length as the same
request with offset 0, whatever the orders of the two scans of the report map. -/
theorem listReports_effective_params (ctx : Context) (req : ListReportsRequest)
    (visit visit0 : List (String × models.Report)) (w : World) :
    (listParams req).Limit = (if 1 ≤ req.Limit ∧ req.Limit ≤ 100 then req.Limit else 50) ∧
    (listParams req).Offset = max 0 req.Offset ∧
    (listParams req).Status = req.Status ∧
    (listParams req).AuthorID = req.AuthorID ∧
    (listParams req).ProjectID = req.ProjectID ∧
    (∃ page total,
      models.ListReports visit (listParams req) = some (page, total) ∧
      ListReports ctx req visit w =
        some (.ok
          { Reports := page.map (fun report =>
              convertModelToAPIReport report (joinedEvaluation report.ID w))
            Total := total })) ∧
    (∃ resp, ListReports ctx req visit w = some (.ok resp) ∧ resp.Reports.length ≤ 100) ∧
    (visit.Perm (entriesOf w.reports) → visit0.Perm (entriesOf w.reports) → req.Offset < 0 →
      ∃ resp resp0,
        ListReports ctx req visit w = some (.ok resp) ∧
        ListReports ctx { req with Offset := 0 } visit0 w = some (.ok resp0) ∧
        resp.Total = resp0.Total ∧ resp.Reports.length = resp0.Reports.length) := by
  obtain ⟨page, hpage, hresp, hl⟩ := ListReports_eq ctx req visit w
  obtain ⟨h0, h1, h100⟩ := listParams_valid req
  refine ⟨?_, ?_, rfl, rfl, rfl, ⟨page, _, hpage, hresp⟩, ⟨_, hresp, ?_⟩, ?_⟩
  · simp only [listParams]
    by_cases h : req.Limit > 0 ∧ req.Limit ≤ 100
    · rw [if_pos h, if_pos ⟨by omega, h.2⟩]
    · rw [if_neg h, if_neg (fun h' => h ⟨by omega, h'.2⟩)]
  · simp only [listParams]
    split <;> omega
  · simp only [List.length_map]
    omega
  · intro hvisit hvisit0 hneg
    obtain ⟨page0, -, hresp0, hl0⟩ := ListReports_eq ctx { req with Offset := 0 } visit0 w
    have hparams : listParams { req with Offset := 0 } = listParams req := by
      have hnot : ¬ req.Offset > 0 := by omega
      simp [listParams, hnot]
    rw [hparams] at hresp0 hl0
    rw [length_result w.reports visit0 (listParams req) hvisit0] at hresp0 hl0
    rw [length_result w.reports visit (listParams req) hvisit] at hresp hl
    refine ⟨_, _, hresp, hresp0, rfl, ?_⟩
    simp only [List.length_map]
    have : (page.length : Int) = (page0.length : Int) := by rw [hl, hl0]
    exact_mod_cast this

theorem listReports_effective_params_witness :
    ∃ resp resp0,
      ListReports demo.ctx demo.oddRequest (entriesOf demo.world.reports) demo.world =
        some (.ok resp) ∧
      ListReports demo.ctx { demo.oddRequest with Offset := 0 }
        (entriesOf demo.world.reports).reverse demo.world = some (.ok resp0) ∧
      resp.Total = resp0.Total ∧ resp.Reports.length = resp0.Reports.length :=
  (listReports_effective_params demo.ctx demo.oddRequest (entriesOf demo.world.reports)
    (entriesOf demo.world.reports).reverse demo.world).2.2.2.2.2.2.2
    (List.Perm.refl _) (List.reverse_perm _) (by decide)

/-- C10. `CreateReport` succeeds; provided the generated identifier is not the empty
string, the returned report has a non-empty ID, status "draft", nil `SubmittedAt`, the
caller as author and the request's title, description, project, department and metadata;
and `GetReportByID` with the returned ID then succeeds with a report that has the same
values in all of these fields. -/
theorem createReport_roundtrip (env : Env) (ctx : Context) (caller : String)
    (req : CreateReportRequest) (w : World)
    (hauth : GetUserIDFromContext ctx = .ok caller)
    (huuid : env.uuid w.uuidDraws ≠ "") :
    ∃ resp stored,
      (CreateReport env ctx req w).1 = .ok resp ∧
      resp.ID = env.uuid w.uuidDraws ∧
      resp.ID ≠ "" ∧ resp.Status = "draft" ∧ resp.SubmittedAt = none ∧
      resp.AuthorID = caller ∧ resp.Title = req.Title ∧
      resp.Description = req.Description ∧ resp.ProjectID = req.ProjectID ∧
      resp.DepartmentID = req.DepartmentID ∧ resp.Metadata = req.Metadata ∧
      GetReportByID resp.ID (CreateReport env ctx req w).2 = .ok stored ∧
      stored.ID = resp.ID ∧ stored.Status = resp.Status ∧
      stored.SubmittedAt = resp.SubmittedAt ∧ stored.AuthorID = resp.AuthorID ∧
      stored.Title = resp.Title ∧ stored.Description = resp.Description ∧
      stored.ProjectID = resp.ProjectID ∧ stored.DepartmentID = resp.DepartmentID ∧
      stored.Metadata = resp.Metadata := by
  simp only [GetUserIDFromContext, Except.ok.injEq] at hauth
  subst hauth
  refine ⟨convertModelToAPIReport (createdReport env w req) req.Evaluation,
    createdReport env w req, CreateReport_response env ctx req w, rfl, huuid, rfl, rfl, rfl,
    rfl,
    rfl, rfl, rfl, rfl, ?_, rfl, rfl, rfl, rfl, rfl, rfl, rfl, rfl, rfl⟩
  rw [GetReportByID_eq_ok, CreateReport_reports]
  exact AList.lookup_insert _

theorem createReport_roundtrip_witness :
    ∃ resp stored,
      (CreateReport demo.env demo.ctx demo.createRequest demo.world).1 = .ok resp ∧
      resp.ID = demo.env.uuid demo.world.uuidDraws ∧
      resp.ID ≠ "" ∧ resp.Status = "draft" ∧ resp.SubmittedAt = none ∧
      resp.AuthorID = "user-123" ∧ resp.Title = demo.createRequest.Title ∧
      resp.Description = demo.createRequest.Description ∧
      resp.ProjectID = demo.createRequest.ProjectID ∧
      resp.DepartmentID = demo.createRequest.DepartmentID ∧
      resp.Metadata = demo.createRequest.Metadata ∧
      GetReportByID resp.ID (CreateReport demo.env demo.ctx demo.createRequest demo.world).2 =
        .ok stored ∧
      stored.ID = resp.ID ∧ stored.Status = resp.Status ∧
      stored.SubmittedAt = resp.SubmittedAt ∧ stored.AuthorID = resp.AuthorID ∧
      stored.Title = resp.Title ∧ stored.Description = resp.Description ∧
      stored.ProjectID = resp.ProjectID ∧ stored.DepartmentID = resp.DepartmentID ∧
      stored.Metadata = resp.Metadata :=
  createReport_roundtrip demo.env demo.ctx "user-123" demo.createRequest demo.world rfl
    (by decide)

end api

namespace models

theorem GetEvaluationByID_eq_ok {id : String} {w : World} {e : Evaluation} :
    GetEvaluationByID id w = .ok e ↔ w.evaluations.lookup id = some e := by
  unfold GetEvaluationByID
  cases h : w.evaluations.lookup id <;> simp

theorem GetEvaluationByReportID_eq_ok {reportID : String} {w : World} {e : Evaluation} :
    GetEvaluationByReportID reportID w = .ok e ↔
      w.evaluationsByReportID.lookup reportID = some e := by
  unfold GetEvaluationByReportID
  cases h : w.evaluationsByReportID.lookup reportID <;> simp

/-- The result of `SaveEvaluation`, written out. -/
theorem SaveEvaluation_eq (env : Env) (e : Evaluation) (w : World) :
    SaveEvaluation env e w =
      .ok (savedEvaluation env w e,
        { w with
          uuidDraws := if e.ID = "" then w.uuidDraws + 1 else w.uuidDraws
          clockReads := w.clockReads + 1
          evaluations :=
            w.evaluations.insert (savedEvaluation env w e).ID (savedEvaluation env w e)
          evaluationsByReportID :=
            w.evaluationsByReportID.insert e.ReportID (savedEvaluation env w e) }) := by
  by_cases h : e.ID = "" <;> simp [SaveEvaluation, savedEvaluation, timeNow, newUUID, h]

end models

namespace api

open models

/-- The evaluation maps that `CreateReport` leaves for a request with evaluation data. -/
theorem CreateReport_evaluations (env : Env) (ctx : Context) (req : CreateReportRequest)
    (w : World) (data : Evaluation) (hdata : req.Evaluation = some data) :
    (CreateReport env ctx req w).2.evaluations =
      w.evaluations.insert (env.uuid (w.uuidDraws + 1)) (createdEvaluation env w data) ∧
    (CreateReport env ctx req w).2.evaluationsByReportID =
      w.evaluationsByReportID.insert (env.uuid w.uuidDraws) (createdEvaluation env w data) := by
  simp [CreateReport, GetUserIDFromContext, SaveReport, SaveEvaluation, timeNow, newUUID,
    createdEvaluation, hdata]

/-- C11. For a `CreateReport` request that carries evaluation data, the call succeeds and
`GetEvaluationByReportID` with the returned report ID then yields an evaluation whose
`ReportID` is that ID, whose six scores and six detail texts are those of the request and
whose `EvaluatorID` is the caller; for a request without evaluation data both evaluation
maps are unchanged. -/
theorem createReport_evaluation_roundtrip (env : Env) (ctx : Context) (caller : String)
    (req : CreateReportRequest) (w : World)
    (hauth : GetUserIDFromContext ctx = .ok caller) :
    (∀ data, req.Evaluation = some data →
      ∃ resp stored,
        (CreateReport env ctx req w).1 = .ok resp ∧
        GetEvaluationByReportID resp.ID (CreateReport env ctx req w).2 = .ok stored ∧
        stored.ReportID = resp.ID ∧
        stored.SecurityScore = data.SecurityScore ∧
        stored.PerformanceScore = data.PerformanceScore ∧
        stored.MemoryScore = data.MemoryScore ∧
        stored.TestingScore = data.TestingScore ∧
        stored.ErrorScore = data.ErrorScore ∧
        stored.LoadScore = data.LoadScore ∧
        stored.SecurityDetails = data.SecurityDetails ∧
        stored.PerformanceDetails = data.PerformanceDetails ∧
        stored.MemoryDetails = data.MemoryDetails ∧
        stored.TestingDetails = data.TestingDetails ∧
        stored.ErrorDetails = data.ErrorDetails ∧
        stored.LoadDetails = data.LoadDetails ∧
        stored.EvaluatorID = caller) ∧
    (req.Evaluation = none →
      (CreateReport env ctx req w).2.evaluations = w.evaluations ∧
      (CreateReport env ctx req w).2.evaluationsByReportID = w.evaluationsByReportID) := by
  simp only [GetUserIDFromContext, Except.ok.injEq] at hauth
  subst hauth
  constructor
  · intro data hdata
    refine ⟨_, createdEvaluation env w data, CreateReport_response env ctx req w, ?_, rfl, rfl,
      rfl, rfl, rfl, rfl, rfl, rfl, rfl, rfl, rfl, rfl, rfl, rfl⟩
    rw [GetEvaluationByReportID_eq_ok, (CreateReport_evaluations env ctx req w data hdata).2]
    exact AList.lookup_insert _
  · intro hnone
    simp [CreateReport, GetUserIDFromContext, SaveReport, timeNow, newUUID, hnone]

theorem createReport_evaluation_roundtrip_witness :
    ∃ resp stored,
      (CreateReport demo.env demo.ctx demo.createRequestWithEvaluation demo.world).1 =
        .ok resp ∧
      GetEvaluationByReportID resp.ID
        (CreateReport demo.env demo.ctx demo.createRequestWithEvaluation demo.world).2 =
        .ok stored ∧
      stored.ReportID = resp.ID ∧ stored.SecurityScore = 9 ∧ stored.EvaluatorID = "user-123" :=
  have ⟨resp, stored, h1, h2, h3, h4, h⟩ :=
    (createReport_evaluation_roundtrip demo.env demo.ctx "user-123"
      demo.createRequestWithEvaluation demo.world rfl).1 demo.evaluationData rfl
  ⟨resp, stored, h1, h2, h3, h4, h.2.2.2.2.2.2.2.2.2.2.2⟩

end api

namespace models

/-- C13. `DeleteEvaluation` with an id that is not a key of the primary map returns
`ErrEvaluationNotFound` and the world it was given, so both evaluation maps are unchanged;
with an id that is a key it returns a nil error, and afterwards `GetEvaluationByID` with
that id and `GetEvaluationByReportID` with the `ReportID` of the deleted evaluation both
return `ErrEvaluationNotFound`. -/
theorem deleteEvaluation_spec (id : String) (w : World) :
    (id ∉ w.evaluations →
      (DeleteEvaluation id w).1 = some .ErrEvaluationNotFound ∧
      (DeleteEvaluation id w).2 = w ∧
      (DeleteEvaluation id w).2.evaluations = w.evaluations ∧
      (DeleteEvaluation id w).2.evaluationsByReportID = w.evaluationsByReportID) ∧
    (∀ deleted, GetEvaluationByID id w = .ok deleted →
      (DeleteEvaluation id w).1 = none ∧
      GetEvaluationByID id (DeleteEvaluation id w).2 = .error .ErrEvaluationNotFound ∧
      GetEvaluationByReportID deleted.ReportID (DeleteEvaluation id w).2 =
        .error .ErrEvaluationNotFound) := by
  constructor
  · intro habsent
    have hnone : w.evaluations.lookup id = none := AList.lookup_eq_none.mpr habsent
    simp [DeleteEvaluation, hnone]
  · intro deleted hget
    rw [GetEvaluationByID_eq_ok] at hget
    simp [DeleteEvaluation, hget, GetEvaluationByID, GetEvaluationByReportID]

theorem deleteEvaluation_spec_witness :
    (DeleteEvaluation "eval-123" demo.world).1 = none ∧
    GetEvaluationByID "eval-123" (DeleteEvaluation "eval-123" demo.world).2 =
      .error .ErrEvaluationNotFound ∧
    GetEvaluationByReportID demo.eval123.ReportID (DeleteEvaluation "eval-123" demo.world).2 =
      .error .ErrEvaluationNotFound :=
  (deleteEvaluation_spec "eval-123" demo.world).2 demo.eval123 rfl

/-- C20. `DeleteReport` with an id that is not a key of the report map returns
`ErrReportNotFound` and leaves the report map unchanged; with an id that is a key it
returns a nil error, removes that key and leaves the report under every other key
unchanged; in both cases the two evaluation maps are unchanged, and
`GetEvaluationByReportID` with that id returns what it returned before. -/
theorem deleteReport_no_cascade (id : String) (w : World) :
    (id ∉ w.reports →
      (DeleteReport id w).1 = some .ErrReportNotFound ∧
      (DeleteReport id w).2.reports = w.reports) ∧
    (id ∈ w.reports →
      (DeleteReport id w).1 = none ∧
      GetReportByID id (DeleteReport id w).2 = .error .ErrReportNotFound ∧
      ∀ k, k ≠ id → (DeleteReport id w).2.reports.lookup k = w.reports.lookup k) ∧
    (DeleteReport id w).2.evaluations = w.evaluations ∧
    (DeleteReport id w).2.evaluationsByReportID = w.evaluationsByReportID ∧
    GetEvaluationByReportID id (DeleteReport id w).2 = GetEvaluationByReportID id w := by
  cases hget : w.reports.lookup id with
  | none =>
    have habsent : id ∉ w.reports := AList.lookup_eq_none.mp hget
    simp [DeleteReport, hget, habsent, GetEvaluationByReportID]
  | some r =>
    have hmem : id ∈ w.reports := AList.lookup_isSome.mp (by simp [hget])
    refine ⟨fun h => absurd hmem h, fun _ => ⟨?_, ?_, ?_⟩, ?_, ?_, ?_⟩
    · simp [DeleteReport, hget]
    · simp [DeleteReport, hget, GetReportByID]
    · intro k hk
      simp [DeleteReport, hget, AList.lookup_erase_ne hk]
    · simp [DeleteReport, hget]
    · simp [DeleteReport, hget]
    · simp [DeleteReport, hget, GetEvaluationByReportID]

theorem deleteReport_no_cascade_witness :
    (DeleteReport "report-123" demo.world).1 = none ∧
    GetReportByID "report-123" (DeleteReport "report-123" demo.world).2 =
      .error .ErrReportNotFound ∧
    GetEvaluationByReportID "report-123" (DeleteReport "report-123" demo.world).2 =
      .ok demo.eval123 :=
  have h := deleteReport_no_cascade "report-123" demo.world
  have h2 := h.2.1 (by decide)
  ⟨h2.1, h2.2.1, h.2.2.2.2.trans rfl⟩

end models

namespace api

open models

/-- A successful `SubmitReport`, written out for any report map. -/
theorem SubmitReport_ok_eq (env : Env) (ctx : Context) (id : String) (w : World)
    (resp : Report) (hok : (SubmitReport env ctx id w).response = .ok resp) :
    ∃ r, w.reports.lookup id = some r ∧ r.AuthorID = "user-123" ∧ r.Status = "draft" ∧
      resp = convertModelToAPIReport (storedSubmission env w r) resp.Evaluation ∧
      (SubmitReport env ctx id w).world.reports =
        w.reports.insert (storedSubmission env w r).ID (storedSubmission env w r) ∧
      (SubmitReport env ctx id w).world.evaluations = w.evaluations ∧
      (SubmitReport env ctx id w).world.evaluationsByReportID = w.evaluationsByReportID ∧
      (SubmitReport env ctx id w).world.departments = w.departments ∧
      (SubmitReport env ctx id w).world.clockReads = w.clockReads + 2 := by
  obtain ⟨r, hget, hauthor, hdraft⟩ := SubmitReport_ok_inv env ctx id w resp hok
  refine ⟨r, hget, hauthor, hdraft, ?_⟩
  by_cases hid : r.ID = ""
  · simp [SubmitReport, GetUserIDFromContext, GetReportByID, hget, hauthor, hdraft, SaveReport,
      timeNow, newUUID, hid] at hok ⊢
    subst hok
    simp [storedSubmission, hid, convertModelToAPIReport, hauthor]
  · simp [SubmitReport, GetUserIDFromContext, GetReportByID, hget, hauthor, hdraft, SaveReport,
      timeNow, newUUID, hid] at hok ⊢
    subst hok
    simp [storedSubmission, hid, convertModelToAPIReport, hauthor]

end api

namespace models

/-- C12, as the code has it. Saving an evaluation with an empty ID for a report that
already has one, with a generated identifier that is not yet a key of the primary map:
`GetEvaluationByReportID` then returns the new evaluation, so the by-report map holds the
new evaluation alone for that report, while the primary map keeps the earlier evaluation
under its own ID next to the new one and so holds one more evaluation for that report than
before, at least two. -/
theorem saveEvaluation_by_report (env : Env) (e earlier : Evaluation) (earlierID : String)
    (w : World)
    (hid : e.ID = "")
    (hearlier : GetEvaluationByID earlierID w = .ok earlier)
    (hfor : earlier.ReportID = e.ReportID)
    (hfresh : env.uuid w.uuidDraws ∉ w.evaluations) :
    ∃ saved w',
      SaveEvaluation env e w = .ok (saved, w') ∧
      GetEvaluationByReportID e.ReportID w' = .ok saved ∧
      GetEvaluationByID saved.ID w' = .ok saved ∧
      GetEvaluationByID earlierID w' = .ok earlier ∧
      saved.ID ≠ earlierID ∧
      evaluationsFor w'.evaluations e.ReportID = evaluationsFor w.evaluations e.ReportID + 1 ∧
      2 ≤ evaluationsFor w'.evaluations e.ReportID := by
  rw [GetEvaluationByID_eq_ok] at hearlier
  have hsaved : (savedEvaluation env w e).ID = env.uuid w.uuidDraws := by
    simp [savedEvaluation, hid]
  have hne : earlierID ≠ env.uuid w.uuidDraws := by
    intro h
    subst h
    exact hfresh (AList.lookup_isSome.mp (by simp [hearlier]))
  have hcount : evaluationsFor
      (w.evaluations.insert (savedEvaluation env w e).ID (savedEvaluation env w e)) e.ReportID =
      evaluationsFor w.evaluations e.ReportID + 1 := by
    rw [hsaved]
    simp only [evaluationsFor, entriesOf, AList.insert_entries_of_neg hfresh, List.map_cons]
    rw [List.countP_cons_of_pos]
    simp [savedEvaluation]
  have hone : 1 ≤ evaluationsFor w.evaluations e.ReportID := by
    simp only [evaluationsFor, List.one_le_countP_iff]
    exact ⟨(earlierID, earlier),
      by simp only [entriesOf, List.mem_map]
         exact ⟨⟨earlierID, earlier⟩, AList.mem_lookup_iff.mp hearlier, rfl⟩,
      by simp [hfor]⟩
  refine ⟨_, _, SaveEvaluation_eq env e w, ?_, ?_, ?_, ?_, hcount, ?_⟩
  · exact GetEvaluationByReportID_eq_ok.mpr (AList.lookup_insert _)
  · exact GetEvaluationByID_eq_ok.mpr (AList.lookup_insert _)
  · rw [GetEvaluationByID_eq_ok]
    simp only [hsaved, AList.lookup_insert_ne hne]
    exact hearlier
  · rw [hsaved]
    exact fun h => hne h.symm
  · rw [hcount]
    omega

theorem saveEvaluation_by_report_witness :
    ∃ saved w',
      SaveEvaluation demo.env demo.secondEvaluation demo.world = .ok (saved, w') ∧
      GetEvaluationByReportID "report-123" w' = .ok saved ∧
      GetEvaluationByID saved.ID w' = .ok saved ∧
      GetEvaluationByID "eval-123" w' = .ok demo.eval123 ∧
      saved.ID ≠ "eval-123" :=
  have ⟨saved, w', h1, h2, h3, h4, h5, _⟩ :=
    saveEvaluation_by_report demo.env demo.secondEvaluation demo.eval123 "eval-123" demo.world
      rfl rfl rfl (by decide)
  ⟨saved, w', h1, h2, h3, h4, h5⟩

/-- C12, as the claim has it, fails: in the start-up world the report `report-123` has the
evaluation `eval-123`; after `SaveEvaluation` of a second evaluation with an empty ID for
the same report the primary map holds two evaluations for `report-123`, not one. -/
theorem saveEvaluation_not_unique :
    demo.secondEvaluation.ID = "" ∧
    demo.secondEvaluation.ReportID = "report-123" ∧
    GetEvaluationByReportID "report-123" demo.world = .ok demo.eval123 ∧
    ∃ saved w',
      SaveEvaluation demo.env demo.secondEvaluation demo.world = .ok (saved, w') ∧
      evaluationsFor w'.evaluations "report-123" = 2 ∧
      evaluationsFor w'.evaluations "report-123" ≠ 1 :=
  ⟨rfl, rfl, rfl, _, _, rfl, by decide, by decide⟩

end models

namespace api

open models

/-- C15, as the code has it. After a successful `SubmitReport` the report stored under the
returned ID has `SubmittedAt` equal to the clock reading `now` taken by `SubmitReport` and
`UpdatedAt` equal to the next clock reading, taken by `SaveReport`; the response carries
the same two values; the two timestamps are equal exactly when the two readings are, and
`SubmittedAt` is not later than `UpdatedAt` when successive readings do not decrease. -/
theorem submitReport_timestamps (env : Env) (ctx : Context) (id : String) (w : World)
    (resp : Report) (hok : (SubmitReport env ctx id w).response = .ok resp) :
    ∃ stored,
      GetReportByID resp.ID (SubmitReport env ctx id w).world = .ok stored ∧
      stored.SubmittedAt = some (env.clock w.clockReads) ∧
      stored.UpdatedAt = env.clock (w.clockReads + 1) ∧
      resp.SubmittedAt = stored.SubmittedAt ∧
      resp.UpdatedAt = stored.UpdatedAt ∧
      (stored.SubmittedAt = some stored.UpdatedAt ↔
        env.clock w.clockReads = env.clock (w.clockReads + 1)) ∧
      ((∀ n, env.clock n ≤ env.clock (n + 1)) →
        stored.SubmittedAt = some (env.clock w.clockReads) ∧
        env.clock w.clockReads ≤ stored.UpdatedAt) := by
  obtain ⟨r, -, -, -, hresp, hreports, -⟩ := SubmitReport_ok_eq env ctx id w resp hok
  have hrid : resp.ID = (storedSubmission env w r).ID := by
    rw [hresp]
    rfl
  refine ⟨storedSubmission env w r, ?_, rfl, rfl, ?_, ?_, ?_, fun hmono => ⟨rfl, hmono _⟩⟩
  · rw [GetReportByID_eq_ok, hreports, hrid]
    exact AList.lookup_insert _
  · rw [hresp]
    rfl
  · rw [hresp]
    rfl
  · simp [storedSubmission]

theorem submitReport_timestamps_witness :
    ∃ stored,
      GetReportByID "report-456"
        (SubmitReport demo.env demo.ctx "report-456" demo.world).world = .ok stored ∧
      stored.SubmittedAt = some (demo.env.clock demo.world.clockReads) ∧
      stored.UpdatedAt = demo.env.clock (demo.world.clockReads + 1) :=
  have ⟨stored, h1, h2, h3, _⟩ :=
    submitReport_timestamps demo.env demo.ctx "report-456" demo.world
      (convertModelToAPIReport (storedSubmission demo.env demo.world demo.draft456) none) rfl
  ⟨stored, h1, h2, h3⟩

/-- C15, as the claim has it, fails: with a clock that advances between readings, the
report stored by a successful `SubmitReport` on `report-456` has an `UpdatedAt` one second
later than its `SubmittedAt`, and so has the response. -/
theorem submitReport_updatedAt_differs :
    ∃ stored resp,
      (SubmitReport demo.env demo.ctx "report-456" demo.world).response = .ok resp ∧
      GetReportByID "report-456"
        (SubmitReport demo.env demo.ctx "report-456" demo.world).world = .ok stored ∧
      stored.SubmittedAt = some 1700000007000000000 ∧
      stored.UpdatedAt = 1700000008000000000 ∧
      stored.SubmittedAt ≠ some stored.UpdatedAt ∧
      resp.SubmittedAt ≠ some resp.UpdatedAt :=
  ⟨_, _, rfl, rfl, rfl, rfl, by decide, by decide⟩

end api

namespace api

open models

/-- C18. For a report whose `DepartmentID` is a key of the department catalog,
`submitToDepartment` builds a payload whose keys are pairwise distinct and are the eight
keys `report_id`, `title`, `description`, `project_id`, `author_id`, `department_id`,
`submitted_at`, `metadata`, each holding the report's field of that name, plus the key
`evaluation` exactly when an evaluation is supplied; the nested object then has twelve
pairwise distinct keys, the six scores and the six details, holding the evaluation's
values. -/
theorem submitToDepartment_payload (report : models.Report) (evaluation : Option Evaluation)
    (w : World) (hdept : report.DepartmentID ∈ w.departments) :
    ∃ payload,
      submitToDepartment report evaluation w = .ok payload ∧
      (payload.map Prod.fst).Nodup ∧
      (∀ key, key ∈ payload.map Prod.fst ↔
        key ∈ ["report_id", "title", "description", "project_id", "author_id",
          "department_id", "submitted_at", "metadata"] ∨
        (key = "evaluation" ∧ evaluation.isSome = true)) ∧
      payload.lookup "report_id" = some (.str report.ID) ∧
      payload.lookup "title" = some (.str report.Title) ∧
      payload.lookup "description" = some (.str report.Description) ∧
      payload.lookup "project_id" = some (.str report.ProjectID) ∧
      payload.lookup "author_id" = some (.str report.AuthorID) ∧
      payload.lookup "department_id" = some (.str report.DepartmentID) ∧
      payload.lookup "submitted_at" = some (.time report.SubmittedAt) ∧
      payload.lookup "metadata" = some (.metadata report.Metadata) ∧
      (evaluation = none → payload.lookup "evaluation" = none) ∧
      (∀ ev, evaluation = some ev →
        ∃ fields,
          payload.lookup "evaluation" = some (.object fields) ∧
          (fields.map Prod.fst).Nodup ∧
          (∀ key, key ∈ fields.map Prod.fst ↔
            key ∈ ["security_score", "performance_score", "memory_score", "testing_score",
              "error_score", "load_score", "security_details", "performance_details",
              "memory_details", "testing_details", "error_details", "load_details"]) ∧
          fields.lookup "security_score" = some (.int ev.SecurityScore) ∧
          fields.lookup "performance_score" = some (.int ev.PerformanceScore) ∧
          fields.lookup "memory_score" = some (.int ev.MemoryScore) ∧
          fields.lookup "testing_score" = some (.int ev.TestingScore) ∧
          fields.lookup "error_score" = some (.int ev.ErrorScore) ∧
          fields.lookup "load_score" = some (.int ev.LoadScore) ∧
          fields.lookup "security_details" = some (.str ev.SecurityDetails) ∧
          fields.lookup "performance_details" = some (.str ev.PerformanceDetails) ∧
          fields.lookup "memory_details" = some (.str ev.MemoryDetails) ∧
          fields.lookup "testing_details" = some (.str ev.TestingDetails) ∧
          fields.lookup "error_details" = some (.str ev.ErrorDetails) ∧
          fields.lookup "load_details" = some (.str ev.LoadDetails)) := by
  obtain ⟨dept, hlookup⟩ := Option.isSome_iff_exists.mp (AList.lookup_isSome.mpr hdept)
  cases evaluation with
  | none =>
    simp only [submitToDepartment, GetDepartmentByID, hlookup]
    refine ⟨_, rfl, ?_, ?_, rfl, rfl, rfl, rfl, rfl, rfl, rfl, rfl, fun _ => rfl,
      fun ev hev => absurd hev (by simp)⟩
    · simp
    · intro key
      simp
  | some ev0 =>
    simp only [submitToDepartment, GetDepartmentByID, hlookup]
    refine ⟨_, rfl, ?_, ?_, rfl, rfl, rfl, rfl, rfl, rfl, rfl, rfl,
      fun h => absurd h (by simp), fun ev hev => ?_⟩
    · simp
    · intro key
      simp [or_assoc]
    · simp only [Option.some.injEq] at hev
      subst hev
      refine ⟨_, rfl, ?_, fun key => Iff.rfl, rfl, rfl, rfl, rfl, rfl, rfl, rfl, rfl,
        rfl, rfl, rfl, rfl⟩
      simp

theorem submitToDepartment_payload_witness :
    ∃ payload,
      submitToDepartment demo.draft456 (some demo.evaluationData) demo.world = .ok payload ∧
      (payload.map Prod.fst).Nodup ∧
      payload.lookup "report_id" = some (.str "report-456") ∧
      (payload.lookup "evaluation").isSome = true :=
  have ⟨payload, h1, h2, _, h4, h⟩ :=
    submitToDepartment_payload demo.draft456 (some demo.evaluationData) demo.world
      (by decide)
  have ⟨fields, hf, _⟩ := h.2.2.2.2.2.2.2.2 demo.evaluationData rfl
  ⟨payload, h1, h2, h4, by rw [hf]; rfl⟩

/-- The result of `SubmitReport` on a stored draft of the mock caller, on any report
map. -/
theorem SubmitReport_of_stored_draft (env : Env) (ctx : Context) (id : String) (w : World)
    (r : models.Report) (hget : w.reports.lookup id = some r)
    (hauthor : r.AuthorID = "user-123") (hdraft : r.Status = "draft") :
    SubmitReport env ctx id w =
      ⟨.ok (convertModelToAPIReport (storedSubmission env w r)
          (joinedEvaluation (storedSubmission env w r).ID (submissionWorld env w r))),
        submissionWorld env w r,
        some (submitToDepartment (storedSubmission env w r)
          (joinedEvaluation (storedSubmission env w r).ID (submissionWorld env w r))
          (submissionWorld env w r))⟩ := by
  by_cases hid : r.ID = "" <;>
    simp [SubmitReport, GetUserIDFromContext, GetReportByID, hget, hauthor, hdraft, SaveReport,
      timeNow, newUUID, hid, storedSubmission, submissionWorld]

/-- C19. With any two department catalogs in place of the program's, `SubmitReport`
returns the same response and leaves the same report map and the same two evaluation
maps; the result of `submitToDepartment` appears only in the outcome of the detached
delivery, which is the department lookup error when the report's department is not in
the catalog while the response is still the submitted report. -/
theorem submitReport_ignores_delivery (env : Env) (ctx : Context) (id : String) (w : World)
    (catalog1 catalog2 : GoMap Department) :
    (SubmitReport env ctx id { w with departments := catalog1 }).response =
      (SubmitReport env ctx id { w with departments := catalog2 }).response ∧
    (SubmitReport env ctx id { w with departments := catalog1 }).world.reports =
      (SubmitReport env ctx id { w with departments := catalog2 }).world.reports ∧
    (SubmitReport env ctx id { w with departments := catalog1 }).world.evaluations =
      (SubmitReport env ctx id { w with departments := catalog2 }).world.evaluations ∧
    (SubmitReport env ctx id { w with departments := catalog1 }).world.evaluationsByReportID =
      (SubmitReport env ctx id { w with departments := catalog2 }).world.evaluationsByReportID ∧
    (∀ resp, (SubmitReport env ctx id { w with departments := catalog1 }).response = .ok resp →
      resp.DepartmentID ∉ catalog1 →
      (SubmitReport env ctx id { w with departments := catalog1 }).delivery =
        some (.error .departmentNotFound)) := by
  cases hget : w.reports.lookup id with
  | none => simp [SubmitReport, GetUserIDFromContext, GetReportByID, hget]
  | some r =>
    by_cases ha : r.AuthorID = "user-123"
    · by_cases hd : r.Status = "draft"
      · rw [SubmitReport_of_stored_draft env ctx id { w with departments := catalog1 } r hget
            ha hd,
          SubmitReport_of_stored_draft env ctx id { w with departments := catalog2 } r hget
            ha hd]
        refine ⟨rfl, rfl, rfl, rfl, ?_⟩
        intro resp hresp hmem
        simp only [Except.ok.injEq] at hresp
        subst hresp
        have hnone : catalog1.lookup r.DepartmentID = none := AList.lookup_eq_none.mpr hmem
        simp [submitToDepartment, GetDepartmentByID, submissionWorld, storedSubmission, hnone]
      · simp [SubmitReport, GetUserIDFromContext, GetReportByID, hget, ha, hd]
    · simp [SubmitReport, GetUserIDFromContext, GetReportByID, hget, ha]

theorem submitReport_ignores_delivery_witness :
    (SubmitReport demo.env demo.ctx "report-456"
        { demo.world with departments := ∅ }).response =
      (SubmitReport demo.env demo.ctx "report-456"
        { demo.world with departments := departments }).response ∧
    (SubmitReport demo.env demo.ctx "report-456"
        { demo.world with departments := ∅ }).delivery =
      some (.error .departmentNotFound) :=
  have h := submitReport_ignores_delivery demo.env demo.ctx "report-456" demo.world ∅
    departments
  ⟨h.1, h.2.2.2.2 _ rfl (AList.not_mem_empty _)⟩

end api

namespace models

/-- The two sample reports of the start-up world, by the fields that the invariants need,
and the number of clock readings made by the two `init` functions. -/
theorem initWorld_reports (env : Env) :
    (initWorld env).clockReads = 7 ∧
    ∀ k r, (initWorld env).reports.lookup k = some r →
      (r.Status = "submitted" ∧ r.SubmittedAt = some (env.clock 4 + (-24) * Hour) ∧
        r.CreatedAt = env.clock 2 + (-48) * Hour ∧ r.UpdatedAt = env.clock 3 + (-24) * Hour) ∨
      (r.Status = "draft" ∧ r.SubmittedAt = none ∧
        r.CreatedAt = env.clock 5 + (-24) * Hour ∧ r.UpdatedAt = env.clock 6 + (-12) * Hour) := by
  refine ⟨rfl, fun k r h => ?_⟩
  simp only [initWorld, initReports, initEvaluations, emptyWorld, timeNow, List.foldl] at h
  by_cases h456 : k = "report-456"
  · subst h456
    rw [AList.lookup_insert] at h
    cases h
    exact Or.inr ⟨rfl, rfl, rfl, rfl⟩
  · rw [AList.lookup_insert_ne h456] at h
    by_cases h123 : k = "report-123"
    · subst h123
      rw [AList.lookup_insert] at h
      cases h
      exact Or.inl ⟨rfl, rfl, rfl, rfl⟩
    · rw [AList.lookup_insert_ne h123] at h
      simp at h

end models

namespace api

open models

/-- Where the reports of the world after a step come from: a report is either the one
stored under the same key before, or the report just created, or the stored form of a
draft that was in the map. -/
theorem step_lookup (env : Env) (op : Op) (w : World) (k : String) (r : models.Report)
    (h : (step env op w).reports.lookup k = some r) :
    w.reports.lookup k = some r ∨
    (∃ ctx req, op = .create ctx req ∧ r = createdReport env w req) ∨
    (∃ id r0, w.reports.lookup id = some r0 ∧ r0.Status = "draft" ∧
      r = storedSubmission env w r0) := by
  cases op with
  | create ctx req =>
    simp only [step, CreateReport_reports] at h
    by_cases hk : k = env.uuid w.uuidDraws
    · subst hk
      rw [AList.lookup_insert] at h
      cases h
      exact Or.inr (Or.inl ⟨ctx, req, rfl, rfl⟩)
    · rw [AList.lookup_insert_ne hk] at h
      exact Or.inl h
  | list ctx req visit => exact Or.inl h
  | submit ctx id =>
    simp only [step] at h
    cases hresp : (SubmitReport env ctx id w).response with
    | error e =>
      rw [(SubmitReport_error_world env ctx id w e hresp).1] at h
      exact Or.inl h
    | ok resp =>
      obtain ⟨r0, hget, -, hdraft, -, hreports, -⟩ := SubmitReport_ok_eq env ctx id w resp hresp
      rw [hreports] at h
      by_cases hk : k = (storedSubmission env w r0).ID
      · subst hk
        rw [AList.lookup_insert] at h
        cases h
        exact Or.inr (Or.inr ⟨id, r0, hget, hdraft, rfl⟩)
      · rw [AList.lookup_insert_ne hk] at h
        exact Or.inl h

/-- No step takes back a clock reading. -/
theorem step_clockReads (env : Env) (op : Op) (w : World) :
    w.clockReads ≤ (step env op w).clockReads := by
  cases op with
  | create ctx req =>
    cases he : req.Evaluation <;>
      simp only [step, CreateReport, GetUserIDFromContext, SaveReport, SaveEvaluation, timeNow,
        newUUID, he, if_true] <;>
      omega
  | list ctx req visit => exact le_rfl
  | submit ctx id =>
    simp only [step]
    cases hresp : (SubmitReport env ctx id w).response with
    | error e => rw [(SubmitReport_error_world env ctx id w e hresp).1]
    | ok resp =>
      obtain ⟨r0, -, -, -, -, -, -, -, -, hclock⟩ := SubmitReport_ok_eq env ctx id w resp hresp
      omega

/-- A property of worlds that holds at the start and is kept by every step holds after
every sequence of calls. -/
theorem run_induction (env : Env) (I : World → Prop)
    (hstep : ∀ op w, I w → I (step env op w)) :
    ∀ (ops : List Op) (w : World), I w → I (run env ops w) := by
  intro ops
  induction ops with
  | nil => exact fun w hw => hw
  | cons op ops ih => exact fun w hw => ih (step env op w) (hstep op w hw)

/-- C14. In every world reached from the start-up world by a sequence of API calls, every
stored report has a non-nil `SubmittedAt` exactly when its status is "submitted". -/
theorem submittedAt_iff_submitted (env : Env) (ops : List Op) (k : String)
    (r : models.Report)
    (hk : (run env ops (initWorld env)).reports.lookup k = some r) :
    r.SubmittedAt ≠ none ↔ r.Status = "submitted" := by
  have hrun := run_induction env
    (fun w => ∀ k r, w.reports.lookup k = some r →
      (r.SubmittedAt ≠ none ↔ r.Status = "submitted"))
    (fun op w hw k r h => by
      rcases step_lookup env op w k r h with hold | ⟨_, req, _, hnew⟩ | ⟨_, r0, _, _, hsub⟩
      · exact hw k r hold
      · subst hnew
        simp [createdReport]
      · subst hsub
        simp [storedSubmission])
    ops (initWorld env)
    (fun k r h => by
      rcases (initWorld_reports env).2 k r h with ⟨hs, ht, -⟩ | ⟨hs, ht, -⟩
      · simp [hs, ht]
      · simp [hs, ht])
  exact hrun k r hk

theorem submittedAt_iff_submitted_witness :
    demo.submitted456.SubmittedAt ≠ none ↔ demo.submitted456.Status = "submitted" :=
  submittedAt_iff_submitted demo.env demo.calls "report-456" demo.submitted456 rfl

/-- C16. When no clock reading is earlier than the one before it, in every world reached
from the start-up world by a sequence of API calls every stored report has
`UpdatedAt ≥ CreatedAt`. -/
theorem updatedAt_ge_createdAt (env : Env) (ops : List Op) (k : String)
    (r : models.Report)
    (hclock : ∀ n, env.clock n ≤ env.clock (n + 1))
    (hk : (run env ops (initWorld env)).reports.lookup k = some r) :
    r.UpdatedAt ≥ r.CreatedAt := by
  have hmono : Monotone env.clock := monotone_nat_of_le_succ hclock
  have hrun := run_induction env
    (fun w => ∀ k r, w.reports.lookup k = some r →
      r.CreatedAt ≤ r.UpdatedAt ∧ r.CreatedAt ≤ env.clock w.clockReads)
    (fun op w hw k r h => by
      have hreads := hmono (step_clockReads env op w)
      rcases step_lookup env op w k r h with hold | ⟨_, req, _, hnew⟩ | ⟨id, r0, h0, _, hsub⟩
      · exact ⟨(hw k r hold).1, (hw k r hold).2.trans hreads⟩
      · subst hnew
        exact ⟨hmono (by omega : w.clockReads ≤ w.clockReads + 1 + 1), hreads⟩
      · subst hsub
        have hcreated := (hw id r0 h0).2
        exact ⟨hcreated.trans (hmono (Nat.le_succ _)), hcreated.trans hreads⟩)
    ops (initWorld env)
    (fun k r h => by
      have h23 := hmono (by omega : 2 ≤ 3)
      have h27 := hmono (by omega : 2 ≤ 7)
      have h56 := hmono (by omega : 5 ≤ 6)
      have h57 := hmono (by omega : 5 ≤ 7)
      rw [(initWorld_reports env).1]
      rcases (initWorld_reports env).2 k r h with ⟨-, -, hc, hu⟩ | ⟨-, -, hc, hu⟩
      · rw [hc, hu]
        simp only [Hour]
        constructor <;> linarith
      · rw [hc, hu]
        simp only [Hour]
        constructor <;> linarith)
  exact (hrun k r hk).1

theorem updatedAt_ge_createdAt_witness :
    demo.submitted456.UpdatedAt ≥ demo.submitted456.CreatedAt :=
  updatedAt_ge_createdAt demo.env demo.calls "report-456" demo.submitted456
    (fun n => by
      show (1700000000000000000 + 1000000000 * (n : Int) : Int) ≤
        1700000000000000000 + 1000000000 * ((n + 1 : Nat) : Int)
      omega) rfl

end api

namespace models

/-- The result of `ListReports` in terms of the operands of its slice expression. -/
theorem ListReports_eq_bounds (visit : List (String × Report)) (params : ListReportsParams) :
    ListReports visit params =
      match sliceBounds visit params with
      | none => some ([], (((visit.map Prod.snd).filter (retained params)).length : Int))
      | some (lo, hi) =>
        (goSlice ((visit.map Prod.snd).filter (retained params)) lo hi).map
          (fun page => (page, (((visit.map Prod.snd).filter (retained params)).length : Int))) := by
  unfold ListReports sliceBounds
  by_cases h : params.Offset ≥ (((visit.map Prod.snd).filter (retained params)).length : Int)
  · simp [h]
  · simp [h]

theorem goSlice_eq_none {α : Type} (s : List α) (lo hi : Int)
    (h : ¬ (0 ≤ lo ∧ lo ≤ hi ∧ hi ≤ (s.length : Int))) : goSlice s lo hi = none := by
  unfold goSlice
  rw [if_neg h]

end models

namespace api

open models

/-- C22. Through the API `ListReports`, whatever the integers `Limit` and `Offset` of the
request, the operands of the slice expression of `models.ListReports` satisfy
`0 ≤ Offset ≤ end ≤ len(result)` whenever the expression is reached, and the call does not
panic; called directly, `models.ListReports` reaches the slice expression with a negative
lower operand and panics for every negative `Offset`, and reaches it with operands out of
range and panics for every negative `Limit` with `Offset` below the number of matches. -/
theorem listReports_bounds (ctx : Context) (req : ListReportsRequest)
    (visit : List (String × models.Report)) (w : World) :
    (∀ lo hi, sliceBounds visit (listParams req) = some (lo, hi) →
      0 ≤ lo ∧ lo ≤ hi ∧
      hi ≤ (((visit.map Prod.snd).filter (retained (listParams req))).length : Int)) ∧
    (∃ resp, ListReports ctx req visit w = some (.ok resp)) ∧
    (∀ params : ListReportsParams, params.Offset < 0 →
      ∃ lo hi, sliceBounds visit params = some (lo, hi) ∧ lo < 0 ∧
        models.ListReports visit params = none) ∧
    (∀ params : ListReportsParams, params.Limit < 0 →
      params.Offset < (((visit.map Prod.snd).filter (retained params)).length : Int) →
      ∃ lo hi, sliceBounds visit params = some (lo, hi) ∧
        ¬ (0 ≤ lo ∧ lo ≤ hi ∧
          hi ≤ (((visit.map Prod.snd).filter (retained params)).length : Int)) ∧
        models.ListReports visit params = none) := by
  obtain ⟨h0, h1, -⟩ := listParams_valid req
  refine ⟨?_, ?_, ?_, ?_⟩
  · intro lo hi hb
    unfold sliceBounds at hb
    simp only at hb
    split at hb
    · cases hb
    · rename_i hlt
      simp only [Option.some.injEq, Prod.mk.injEq] at hb
      obtain ⟨hlo, hhi⟩ := hb
      subst hlo
      subst hhi
      refine ⟨h0, ?_, ?_⟩
      · split <;> omega
      · split <;> omega
  · obtain ⟨page, -, hresp, -⟩ := ListReports_eq ctx req visit w
    exact ⟨_, hresp⟩
  · intro params hneg
    have hlt : ¬ params.Offset ≥
        (((visit.map Prod.snd).filter (retained params)).length : Int) := by omega
    have hb : sliceBounds visit params =
        some (params.Offset,
          if params.Offset + params.Limit >
              (((visit.map Prod.snd).filter (retained params)).length : Int)
          then (((visit.map Prod.snd).filter (retained params)).length : Int)
          else params.Offset + params.Limit) := by
      simp [sliceBounds, hlt]
    refine ⟨_, _, hb, hneg, ?_⟩
    rw [ListReports_eq_bounds, hb]
    simp only
    rw [goSlice_eq_none _ _ _ (by omega)]
    rfl
  · intro params hneg hbelow
    have hlt : ¬ params.Offset ≥
        (((visit.map Prod.snd).filter (retained params)).length : Int) := by omega
    have hend : ¬ params.Offset + params.Limit >
        (((visit.map Prod.snd).filter (retained params)).length : Int) := by omega
    have hb : sliceBounds visit params =
        some (params.Offset, params.Offset + params.Limit) := by
      simp [sliceBounds, hlt, hend]
    have hout : ¬ (0 ≤ params.Offset ∧ params.Offset ≤ params.Offset + params.Limit ∧
        params.Offset + params.Limit ≤
          (((visit.map Prod.snd).filter (retained params)).length : Int)) := by omega
    refine ⟨_, _, hb, hout, ?_⟩
    rw [ListReports_eq_bounds, hb]
    simp only
    rw [goSlice_eq_none _ _ _ hout]
    rfl

theorem listReports_bounds_witness :
    ∃ lo hi, sliceBounds (entriesOf demo.fiveReports) demo.negativeOffset = some (lo, hi) ∧
      lo < 0 ∧ models.ListReports (entriesOf demo.fiveReports) demo.negativeOffset = none :=
  (listReports_bounds demo.ctx demo.oddRequest (entriesOf demo.fiveReports)
    demo.world).2.2.1 demo.negativeOffset (by decide)

end api

namespace api

open models

/-- The evaluation that `SubmitReport` returns for a report just created with evaluation
data is the request's data with `EvaluatorID` replaced by the mock caller, while
`CreateReport` returned the request's data as it came. -/
theorem createReport_then_submit (env : Env) (ctx : Context) (req : CreateReportRequest)
    (w : World) (data : Evaluation) (hdata : req.Evaluation = some data)
    (huuid : env.uuid w.uuidDraws ≠ "") :
    ∃ created submitted,
      (CreateReport env ctx req w).1 = .ok created ∧
      (SubmitReport env ctx created.ID (CreateReport env ctx req w).2).response =
        .ok submitted ∧
      created.Evaluation = some data ∧
      submitted.Evaluation = some { data with EvaluatorID := "user-123" } := by
  have hrep := CreateReport_reports env ctx req w
  have hby := (CreateReport_evaluations env ctx req w data hdata).2
  have hget : (CreateReport env ctx req w).2.reports.lookup (env.uuid w.uuidDraws) =
      some (createdReport env w req) := by
    rw [hrep]
    exact AList.lookup_insert _
  have hsub := SubmitReport_of_stored_draft env ctx (env.uuid w.uuidDraws)
    (CreateReport env ctx req w).2 (createdReport env w req) hget rfl rfl
  refine ⟨_, _, CreateReport_response env ctx req w, congrArg Submission.response hsub, hdata,
    ?_⟩
  simp only [convertModelToAPIReport, joinedEvaluation, GetEvaluationByReportID,
    submissionWorld, storedSubmission, createdReport, hby]
  have hkey : (if env.uuid w.uuidDraws = "" then env.uuid (CreateReport env ctx req w).2.uuidDraws
      else env.uuid w.uuidDraws) = env.uuid w.uuidDraws := if_neg huuid
  rw [hkey, AList.lookup_insert]
  rfl

/-- C24 at its failing input. The request carries evaluation data with `evaluator_id`
"user-999" and the caller is "user-123": the evaluation in the response of `CreateReport`
has `EvaluatorID` "user-999", while the evaluation joined to the same report by the
following `SubmitReport`, and by `ListReports`, has `EvaluatorID` "user-123". -/
theorem createReport_evaluator_differs :
    ∃ created submitted listing,
      (CreateReport demo.env demo.ctx demo.createRequestWithEvaluation demo.world).1 =
        .ok created ∧
      ListReports demo.ctx demo.listAll (entriesOf demo.createdWorld.reports)
        demo.createdWorld = some (.ok listing) ∧
      (SubmitReport demo.env demo.ctx created.ID demo.createdWorld).response =
        .ok submitted ∧
      created.Evaluation.map (fun e => e.EvaluatorID) = some "user-999" ∧
      submitted.Evaluation.map (fun e => e.EvaluatorID) = some "user-123" ∧
      (listing.Reports.filter (fun r => r.ID = created.ID)).map
        (fun r => r.Evaluation.map (fun e => e.EvaluatorID)) = [some "user-123"] ∧
      created.Evaluation ≠ submitted.Evaluation :=
  ⟨_, _, _, rfl, rfl, rfl, rfl, rfl, rfl, by decide⟩

end api

namespace models

/-- The two evaluation maps after a `SaveEvaluation` step. -/
theorem evalStep_save (env : Env) (e : Evaluation) (w : World) :
    (evalStep env (.save e) w).evaluations =
      w.evaluations.insert (savedEvaluation env w e).ID (savedEvaluation env w e) ∧
    (evalStep env (.save e) w).evaluationsByReportID =
      w.evaluationsByReportID.insert e.ReportID (savedEvaluation env w e) := by
  constructor <;> simp only [evalStep, SaveEvaluation_eq]

theorem lookup_erase_some {β : Type} {m : GoMap β} {k r : String} {e : β}
    (h : (m.erase k).lookup r = some e) : r ≠ k ∧ m.lookup r = some e := by
  by_cases hr : r = k
  · subst hr
    rw [AList.lookup_erase] at h
    cases h
  · rw [AList.lookup_erase_ne hr] at h
    exact ⟨hr, h⟩

end models

namespace api

open models

/-- On every world that stores a draft of the mock caller under its own non-empty ID, two
calls interleaved as load, load, check, check, store, store both return a report. -/
theorem submit_interleaved (env : Env) (ctx : Context) (w : World) (r : models.Report)
    (hget : w.reports.lookup r.ID = some r) (hauthor : r.AuthorID = "user-123")
    (hdraft : r.Status = "draft") (hid : r.ID ≠ "") :
    successes (runSchedule env ctx r.ID [0, 1, 0, 1, 0, 1] ([.start, .start], w)).1 = 2 := by
  simp [runSchedule, stepCall, submitStep, GetUserIDFromContext, GetReportByID, hget, hauthor,
    hdraft, pointee, timeNow, SaveReport, hid, successes, Phase.succeeded]

end api

namespace api

open models

/-- The three parts of `SubmitReport`, taken without another call in between, give the
response and the world of `SubmitReport`. -/
theorem submitStep_sequential (env : Env) (ctx : Context) (id : String) (w : World) :
    runSchedule env ctx id [0, 0, 0] ([.start], w) =
      ([.done (SubmitReport env ctx id w).response], (SubmitReport env ctx id w).world) := by
  cases hget : w.reports.lookup id with
  | none =>
    simp [runSchedule, stepCall, submitStep, SubmitReport, GetUserIDFromContext, GetReportByID,
      hget]
  | some r =>
    by_cases ha : r.AuthorID = "user-123"
    · by_cases hd : r.Status = "draft"
      · simp [runSchedule, stepCall, submitStep, SubmitReport, GetUserIDFromContext,
          GetReportByID, hget, ha, hd, pointee, timeNow, SaveReport]
      · simp [runSchedule, stepCall, submitStep, SubmitReport, GetUserIDFromContext,
          GetReportByID, hget, ha, hd, pointee]
    · simp [runSchedule, stepCall, submitStep, SubmitReport, GetUserIDFromContext,
        GetReportByID, hget, ha]

/-- C21 at its failing input. Two calls `SubmitReport(ctx, "report-456")` by the author
of the draft `report-456`, interleaved as load, load, check, check, store, store: both
calls return the submitted report. Run one after the other, the same two calls give one
success. -/
theorem concurrent_submit_two_successes :
    successes (runSchedule demo.env demo.ctx "report-456" [0, 1, 0, 1, 0, 1]
      ([.start, .start], demo.world)).1 = 2 ∧
    ((runSchedule demo.env demo.ctx "report-456" [0, 1, 0, 1, 0, 1]
      ([.start, .start], demo.world)).1.map Phase.returned) = [true, true] ∧
    successes (runSchedule demo.env demo.ctx "report-456" [0, 0, 0, 1, 1, 1]
      ([.start, .start], demo.world)).1 = 1 ∧
    ((runSchedule demo.env demo.ctx "report-456" [0, 0, 0, 1, 1, 1]
      ([.start, .start], demo.world)).1.map Phase.returned) = [true, true] :=
  ⟨rfl, rfl, rfl, rfl⟩

end api

namespace models

theorem wrapInt_eq (x : Int) (hlo : minInt ≤ x) (hhi : x ≤ maxInt) : wrapInt x = x := by
  simp only [minInt, maxInt] at hlo hhi
  simp only [wrapInt]
  omega

/-- The embedding that adds in the integers agrees with the 64-bit one whenever the sum is
not computed, or is computed and stays in the range of `int`. -/
theorem listReports64_eq (visit : List (String × Report)) (params : ListReportsParams)
    (h : params.Offset ≥ (((visit.map Prod.snd).filter (retained params)).length : Int) ∨
      (minInt ≤ params.Offset + params.Limit ∧ params.Offset + params.Limit ≤ maxInt)) :
    int64.ListReports visit params = ListReports visit params := by
  unfold int64.ListReports ListReports
  by_cases hge : params.Offset ≥ (((visit.map Prod.snd).filter (retained params)).length : Int)
  · simp [hge]
  · rcases h with h | ⟨hlo, hhi⟩
    · exact absurd h hge
    · simp only [wrapInt_eq _ hlo hhi]

/-- With five matching reports, offset 1 and the largest `int` as limit, the sum wraps to
a negative `end` and the slice expression panics; added in the integers, the sum is
clamped and a page comes back.  The two embeddings differ here, and only on such sums. -/
theorem listReports64_wrap :
    int64.ListReports (entriesOf demo.fiveReports) demo.hugeLimit = none ∧
    (ListReports (entriesOf demo.fiveReports) demo.hugeLimit).isSome = true :=
  ⟨rfl, rfl⟩

end models

namespace api

open models

/-- Through the API the two embeddings of the repository `ListReports` agree on every
scan of fewer than `maxInt - 100` entries: the limit is at most 100 and the sum is only
computed for an offset below the number of matches. -/
theorem listReports64_api (req : ListReportsRequest) (visit : List (String × models.Report))
    (hsize : (visit.length : Int) + 100 ≤ maxInt) :
    int64.ListReports visit (listParams req) = models.ListReports visit (listParams req) := by
  obtain ⟨h0, h1, h100⟩ := listParams_valid req
  by_cases hge : (listParams req).Offset ≥
      (((visit.map Prod.snd).filter (retained (listParams req))).length : Int)
  · exact listReports64_eq visit _ (Or.inl hge)
  · have hfilter : ((visit.map Prod.snd).filter (retained (listParams req))).length ≤
        visit.length := by
      have := List.length_filter_le (retained (listParams req)) (visit.map Prod.snd)
      simpa using this
    refine listReports64_eq visit _ (Or.inr ⟨?_, ?_⟩)
    · simp only [minInt]
      omega
    · simp only [maxInt] at hsize ⊢
      omega

end api

namespace models

namespace ptr

/-- The result of the pointer-level `SaveEvaluation`, written out. -/
theorem save_eq (env : Env) (p : Ptr) (s : Store) :
    SaveEvaluation env p s =
      (none,
        { s with
          objects := Function.update s.objects p (saved env p s)
          uuidDraws := if (s.objects p).ID = "" then s.uuidDraws + 1 else s.uuidDraws
          clockReads := s.clockReads + 1
          evaluations := s.evaluations.insert (saved env p s).ID p
          evaluationsByReportID := s.evaluationsByReportID.insert (s.objects p).ReportID p }) := by
  by_cases h : (s.objects p).ID = "" <;>
    simp [SaveEvaluation, assign, saved, h, Function.update_same]

end ptr

/-- C17, as the code has it. `SaveEvaluation` on the pointer `p` of any evaluation, in
any store: the error is nil; the struct behind `p` becomes the struct as it was with
`UpdatedAt` refreshed and, only when its `ID` was empty, the generated ID; both
`GetEvaluationByID` with that ID and `GetEvaluationByReportID` with its `ReportID` return
`p`, whatever they returned before; lookups by every other ID and by every other report
reference return the pointer (or the error) they returned before, and every struct other
than the one behind `p` is unchanged.  So such a lookup shows what it showed before,
unless it returns `p` itself (the evaluation was already stored under that other key),
and then it shows the evaluation as saved. -/
theorem save_through_pointer (env : Env) (p : Ptr) (s : ptr.Store) :
    (ptr.SaveEvaluation env p s).1 = none ∧
    (ptr.SaveEvaluation env p s).2.objects p = ptr.saved env p s ∧
    ptr.GetEvaluationByID (ptr.saved env p s).ID (ptr.SaveEvaluation env p s).2 = .ok p ∧
    ptr.GetEvaluationByReportID (s.objects p).ReportID (ptr.SaveEvaluation env p s).2 = .ok p ∧
    (ptr.saved env p s).ReportID = (s.objects p).ReportID ∧
    ((s.objects p).ID ≠ "" → (ptr.saved env p s).ID = (s.objects p).ID) ∧
    ((s.objects p).ID = "" → (ptr.saved env p s).ID = env.uuid s.uuidDraws) ∧
    (∀ id, id ≠ (ptr.saved env p s).ID →
      ptr.GetEvaluationByID id (ptr.SaveEvaluation env p s).2 = ptr.GetEvaluationByID id s) ∧
    (∀ r, r ≠ (s.objects p).ReportID →
      ptr.GetEvaluationByReportID r (ptr.SaveEvaluation env p s).2 =
        ptr.GetEvaluationByReportID r s) ∧
    (∀ q, q ≠ p → (ptr.SaveEvaluation env p s).2.objects q = s.objects q) ∧
    (∀ id, id ≠ (ptr.saved env p s).ID → ptr.GetEvaluationByID id s ≠ .ok p →
      ptr.shown (ptr.SaveEvaluation env p s).2
          (ptr.GetEvaluationByID id (ptr.SaveEvaluation env p s).2) =
        ptr.shown s (ptr.GetEvaluationByID id s)) ∧
    (∀ r, r ≠ (s.objects p).ReportID → ptr.GetEvaluationByReportID r s ≠ .ok p →
      ptr.shown (ptr.SaveEvaluation env p s).2
          (ptr.GetEvaluationByReportID r (ptr.SaveEvaluation env p s).2) =
        ptr.shown s (ptr.GetEvaluationByReportID r s)) ∧
    (∀ id, id ≠ (ptr.saved env p s).ID → ptr.GetEvaluationByID id s = .ok p →
      ptr.shown (ptr.SaveEvaluation env p s).2
          (ptr.GetEvaluationByID id (ptr.SaveEvaluation env p s).2) =
        some (ptr.saved env p s)) ∧
    (∀ r, r ≠ (s.objects p).ReportID → ptr.GetEvaluationByReportID r s = .ok p →
      ptr.shown (ptr.SaveEvaluation env p s).2
          (ptr.GetEvaluationByReportID r (ptr.SaveEvaluation env p s).2) =
        some (ptr.saved env p s)) := by
  rw [ptr.save_eq]
  have hID : ∀ id, id ≠ (ptr.saved env p s).ID →
      ptr.GetEvaluationByID id
        { s with
          objects := Function.update s.objects p (ptr.saved env p s)
          uuidDraws := if (s.objects p).ID = "" then s.uuidDraws + 1 else s.uuidDraws
          clockReads := s.clockReads + 1
          evaluations := s.evaluations.insert (ptr.saved env p s).ID p
          evaluationsByReportID := s.evaluationsByReportID.insert (s.objects p).ReportID p } =
      ptr.GetEvaluationByID id s := by
    intro id hid
    simp only [ptr.GetEvaluationByID, AList.lookup_insert_ne hid]
  have hR : ∀ r, r ≠ (s.objects p).ReportID →
      ptr.GetEvaluationByReportID r
        { s with
          objects := Function.update s.objects p (ptr.saved env p s)
          uuidDraws := if (s.objects p).ID = "" then s.uuidDraws + 1 else s.uuidDraws
          clockReads := s.clockReads + 1
          evaluations := s.evaluations.insert (ptr.saved env p s).ID p
          evaluationsByReportID := s.evaluationsByReportID.insert (s.objects p).ReportID p } =
      ptr.GetEvaluationByReportID r s := by
    intro r hr
    simp only [ptr.GetEvaluationByReportID, AList.lookup_insert_ne hr]
  refine ⟨rfl, ?_, ?_, ?_, rfl, ?_, ?_, hID, hR, ?_, ?_, ?_, ?_, ?_⟩
  · simp
  · simp [ptr.GetEvaluationByID]
  · simp [ptr.GetEvaluationByReportID]
  · intro h
    simp [ptr.saved, h]
  · intro h
    simp [ptr.saved, h]
  · intro q hq
    simp [Function.update_noteq hq]
  · intro id hid hnot
    rw [hID id hid]
    cases hres : ptr.GetEvaluationByID id s with
    | error e => rfl
    | ok q =>
      have hq : q ≠ p := fun h => hnot (by rw [hres, h])
      simp [ptr.shown, Function.update_noteq hq]
  · intro r hr hnot
    rw [hR r hr]
    cases hres : ptr.GetEvaluationByReportID r s with
    | error e => rfl
    | ok q =>
      have hq : q ≠ p := fun h => hnot (by rw [hres, h])
      simp [ptr.shown, Function.update_noteq hq]
  · intro id hid hp
    rw [hID id hid, hp]
    simp [ptr.shown]
  · intro r hr hp
    rw [hR r hr, hp]
    simp [ptr.shown]

theorem save_through_pointer_witness :
    ptr.shown (ptr.SaveEvaluation demo.env 0 demo.storeReassigned).2
        (ptr.GetEvaluationByReportID "report-123"
          (ptr.SaveEvaluation demo.env 0 demo.storeReassigned).2) =
      some (ptr.saved demo.env 0 demo.storeReassigned) :=
  (save_through_pointer demo.env 0 demo.storeReassigned).2.2.2.2.2.2.2.2.2.2.2.2.2
    "report-123" (by decide) rfl

/-- C17, as the claim has it, fails. The caller holds the pointer stored under `eval-123`
and `report-123`, assigns `ReportID = "report-456"` through it and calls `SaveEvaluation`
on it: `report-123` is another report reference than the evaluation's, yet the lookup by
`report-123` shows `UpdatedAt` one day before the first clock reading before the call and
the clock reading of the call after it. -/
theorem save_changes_other_key :
    (demo.storeReassigned.objects 0).ReportID = "report-456" ∧
    "report-123" ≠ (demo.storeReassigned.objects 0).ReportID ∧
    (ptr.shown demo.storeReassigned
        (ptr.GetEvaluationByReportID "report-123" demo.storeReassigned)).map
      (fun e => e.UpdatedAt) = some (1700000001000000000 + (-24) * Hour) ∧
    (ptr.shown (ptr.SaveEvaluation demo.env 0 demo.storeReassigned).2
        (ptr.GetEvaluationByReportID "report-123"
          (ptr.SaveEvaluation demo.env 0 demo.storeReassigned).2)).map
      (fun e => e.UpdatedAt) = some 1700000007000000000 ∧
    ptr.shown (ptr.SaveEvaluation demo.env 0 demo.storeReassigned).2
        (ptr.GetEvaluationByReportID "report-123"
          (ptr.SaveEvaluation demo.env 0 demo.storeReassigned).2) ≠
      ptr.shown demo.storeReassigned
        (ptr.GetEvaluationByReportID "report-123" demo.storeReassigned) := by
  refine ⟨rfl, by decide, rfl, rfl, ?_⟩
  intro h
  have hu := congrArg (fun o => o.map (fun e => e.UpdatedAt)) h
  exact absurd hu (by decide)

end models

namespace models

namespace ptr

/-- The start-up pointer store shows the evaluations of the start-up world. -/
theorem sim_init (env : Env) : Sim (initStore env) (initWorld env) := by
  refine ⟨?_, ?_, ?_, ?_, rfl, rfl⟩
  · intro id
    simp only [initStore, init, new, emptyStore, List.foldl, initWorld, initReports,
      initEvaluations, emptyWorld, timeNow, Function.update_same]
    by_cases hid : id = "eval-123"
    · subst hid
      rw [AList.lookup_insert, AList.lookup_insert]
      simp [Function.update_same]
    · rw [AList.lookup_insert_ne hid, AList.lookup_insert_ne hid]
      rfl
  · intro r
    simp only [initStore, init, new, emptyStore, List.foldl, initWorld, initReports,
      initEvaluations, emptyWorld, timeNow, Function.update_same]
    by_cases hr : r = "report-123"
    · subst hr
      rw [AList.lookup_insert, AList.lookup_insert]
      simp [Function.update_same]
    · rw [AList.lookup_insert_ne hr, AList.lookup_insert_ne hr]
      rfl
  · intro id p h
    simp only [initStore, init, new, emptyStore, List.foldl, Function.update_same] at h ⊢
    by_cases hid : id = "eval-123"
    · subst hid
      rw [AList.lookup_insert] at h
      cases h
      exact Nat.zero_lt_one
    · rw [AList.lookup_insert_ne hid] at h
      cases h
  · intro r p h
    simp only [initStore, init, new, emptyStore, List.foldl, Function.update_same] at h ⊢
    by_cases hr : r = "report-123"
    · subst hr
      rw [AList.lookup_insert] at h
      cases h
      exact Nat.zero_lt_one
    · rw [AList.lookup_insert_ne hr] at h
      cases h

end ptr

end models

namespace models

namespace ptr

/-- The pointer store after `SaveEvaluation` on a newly built struct, written out. -/
theorem step_save_eq (env : Env) (e : Evaluation) (s : Store) :
    step env (.save e) s =
      { objects := Function.update (Function.update s.objects s.allocated e) s.allocated
          { e with
            ID := if e.ID = "" then env.uuid s.uuidDraws else e.ID
            UpdatedAt := env.clock s.clockReads }
        allocated := s.allocated + 1
        evaluations :=
          s.evaluations.insert (if e.ID = "" then env.uuid s.uuidDraws else e.ID) s.allocated
        evaluationsByReportID := s.evaluationsByReportID.insert e.ReportID s.allocated
        clockReads := s.clockReads + 1
        uuidDraws := if e.ID = "" then s.uuidDraws + 1 else s.uuidDraws } := by
  simp only [step, new, save_eq, saved, Function.update_same]

/-- The counters of the world after a `SaveEvaluation` step. -/
theorem evalStep_save_counters (env : Env) (e : Evaluation) (w : World) :
    (evalStep env (.save e) w).clockReads = w.clockReads + 1 ∧
    (evalStep env (.save e) w).uuidDraws =
      if e.ID = "" then w.uuidDraws + 1 else w.uuidDraws := by
  constructor <;> simp only [evalStep, SaveEvaluation_eq]

theorem map_update_of_lt {m : GoMap Ptr} {objects : Ptr → Evaluation} {bound : Nat}
    (hbound : ∀ k p, m.lookup k = some p → p < bound) (k : String) (a b : Evaluation) :
    (m.lookup k).map (Function.update (Function.update objects bound a) bound b) =
      (m.lookup k).map objects := by
  cases h : m.lookup k with
  | none => rfl
  | some q =>
    have hq : q ≠ bound := Nat.ne_of_lt (hbound k q h)
    simp [Function.update_noteq hq]

/-- One call keeps the pointer store and the world in step: `SaveEvaluation` on a newly
built struct, and `DeleteEvaluation`, change what the lookups show in the same way in
both. -/
theorem sim_step (env : Env) (op : EvalOp) (s : Store) (w : World) (h : Sim s w) :
    Sim (step env op s) (evalStep env op w) := by
  obtain ⟨hprim, hby, hbp, hbb, hclock, huuid⟩ := h
  cases op with
  | save e =>
    have hsaved : savedEvaluation env w e =
        { e with
          ID := if e.ID = "" then env.uuid s.uuidDraws else e.ID
          UpdatedAt := env.clock s.clockReads } := by
      simp only [savedEvaluation, hclock, huuid]
    have hsavedID : (savedEvaluation env w e).ID =
        if e.ID = "" then env.uuid s.uuidDraws else e.ID := by
      rw [hsaved]
    rw [step_save_eq]
    refine ⟨?_, ?_, ?_, ?_, ?_, ?_⟩
    · intro id
      rw [(evalStep_save env e w).1, hsavedID]
      by_cases hid : id = if e.ID = "" then env.uuid s.uuidDraws else e.ID
      · rw [hid, AList.lookup_insert, AList.lookup_insert, hsaved]
        simp only [Option.map_some', Function.update_same]
      · rw [AList.lookup_insert_ne hid, AList.lookup_insert_ne hid]
        simp only
        rw [map_update_of_lt hbp]
        exact hprim id
    · intro r
      rw [(evalStep_save env e w).2]
      by_cases hr : r = e.ReportID
      · rw [hr, AList.lookup_insert, AList.lookup_insert, hsaved]
        simp only [Option.map_some', Function.update_same]
      · rw [AList.lookup_insert_ne hr, AList.lookup_insert_ne hr]
        simp only
        rw [map_update_of_lt hbb]
        exact hby r
    · intro id p hp
      simp only at hp ⊢
      by_cases hid : id = if e.ID = "" then env.uuid s.uuidDraws else e.ID
      · rw [hid, AList.lookup_insert] at hp
        cases hp
        exact Nat.lt_succ_self _
      · rw [AList.lookup_insert_ne hid] at hp
        exact Nat.lt_succ_of_lt (hbp id p hp)
    · intro r p hp
      simp only at hp ⊢
      by_cases hr : r = e.ReportID
      · rw [hr, AList.lookup_insert] at hp
        cases hp
        exact Nat.lt_succ_self _
      · rw [AList.lookup_insert_ne hr] at hp
        exact Nat.lt_succ_of_lt (hbb r p hp)
    · rw [(evalStep_save_counters env e w).1, hclock]
    · rw [(evalStep_save_counters env e w).2, huuid]
  | delete id =>
    cases hp : s.evaluations.lookup id with
    | none =>
      have hw : w.evaluations.lookup id = none := by
        rw [← hprim id, hp]
        rfl
      have hs : step env (.delete id) s = s := by
        simp [step, DeleteEvaluation, hp]
      have hv : evalStep env (.delete id) w = w := by
        simp [evalStep, models.DeleteEvaluation, hw]
      rw [hs, hv]
      exact ⟨hprim, hby, hbp, hbb, hclock, huuid⟩
    | some p =>
      have hw : w.evaluations.lookup id = some (s.objects p) := by
        rw [← hprim id, hp]
        rfl
      have hs : step env (.delete id) s =
          { s with
            evaluations := s.evaluations.erase id
            evaluationsByReportID := s.evaluationsByReportID.erase (s.objects p).ReportID } := by
        simp [step, DeleteEvaluation, hp]
      have hv : evalStep env (.delete id) w =
          { w with
            evaluations := w.evaluations.erase id
            evaluationsByReportID := w.evaluationsByReportID.erase (s.objects p).ReportID } := by
        simp [evalStep, models.DeleteEvaluation, hw]
      rw [hs, hv]
      refine ⟨?_, ?_, ?_, ?_, hclock, huuid⟩
      · intro k
        by_cases hk : k = id
        · rw [hk]
          simp only [AList.lookup_erase]
          rfl
        · simp only [AList.lookup_erase_ne hk]
          exact hprim k
      · intro r
        by_cases hr : r = (s.objects p).ReportID
        · rw [hr]
          simp only [AList.lookup_erase]
          rfl
        · simp only [AList.lookup_erase_ne hr]
          exact hby r
      · intro k q hq
        exact hbp k q (lookup_erase_some hq).2
      · intro r q hq
        exact hbb r q (lookup_erase_some hq).2

/-- After every sequence of calls the pointer store shows the evaluations of the world
reached by the same sequence. -/
theorem sim_run (env : Env) (ops : List EvalOp) :
    ∀ (s : Store) (w : World), Sim s w → Sim (run env ops s) (evalRun env ops w) := by
  induction ops with
  | nil => exact fun s w h => h
  | cons op ops ih => exact fun s w h => ih _ _ (sim_step env op s w h)

/-- After every sequence of `DeleteEvaluation` calls and `SaveEvaluation` calls on newly
built structs from start-up, the pointer store shows the evaluations of the world that
`models.SaveEvaluation` and `models.DeleteEvaluation` reach by the same sequence. -/
theorem sim_start (env : Env) (ops : List EvalOp) :
    Sim (run env ops (initStore env)) (evalRun env ops (initWorld env)) :=
  sim_run env ops (initStore env) (initWorld env) (sim_init env)

/-- What a lookup in the pointer store shows is what the world holds under the key. -/
theorem shown_of_sim {s : Store} {w : World} (h : Sim s w) (k : String) :
    shown s (GetEvaluationByID k s) = w.evaluations.lookup k ∧
    shown s (GetEvaluationByReportID k s) = w.evaluationsByReportID.lookup k := by
  constructor
  · rw [← h.1 k]
    simp only [GetEvaluationByID]
    cases s.evaluations.lookup k <;> rfl
  · rw [← h.2.1 k]
    simp only [GetEvaluationByReportID]
    cases s.evaluationsByReportID.lookup k <;> rfl

end ptr

end models

namespace models

namespace ptr

/-- The pointer store after `SaveEvaluation` on a newly built struct, field by field. -/
theorem step_save (env : Env) (e : Evaluation) (s : Store) :
    (step env (.save e) s).objects =
      Function.update s.objects s.allocated
        { e with
          ID := if e.ID = "" then env.uuid s.uuidDraws else e.ID
          UpdatedAt := env.clock s.clockReads } ∧
    (step env (.save e) s).allocated = s.allocated + 1 ∧
    (step env (.save e) s).evaluations =
      s.evaluations.insert (if e.ID = "" then env.uuid s.uuidDraws else e.ID) s.allocated ∧
    (step env (.save e) s).evaluationsByReportID =
      s.evaluationsByReportID.insert e.ReportID s.allocated := by
  rw [step_save_eq]
  exact ⟨Function.update_idem _ _ _, rfl, rfl, rfl⟩

/-- The pointer store after a `DeleteEvaluation` step. -/
theorem step_delete (id : String) (env : Env) (s : Store) :
    (s.evaluations.lookup id = none ∧ step env (.delete id) s = s) ∨
    (∃ p, s.evaluations.lookup id = some p ∧
      step env (.delete id) s =
        { s with
          evaluations := s.evaluations.erase id
          evaluationsByReportID := s.evaluationsByReportID.erase (s.objects p).ReportID }) := by
  cases h : s.evaluations.lookup id with
  | none => exact Or.inl ⟨rfl, by simp [step, DeleteEvaluation, h]⟩
  | some p => exact Or.inr ⟨p, rfl, by simp [step, DeleteEvaluation, h]⟩

/-- Every step keeps: a stored pointer is an address in use, and the struct behind it
carries the key it is stored under. -/
theorem step_keyed (env : Env) (op : EvalOp) (s : Store)
    (hby : ∀ r p, s.evaluationsByReportID.lookup r = some p →
      p < s.allocated ∧ (s.objects p).ReportID = r)
    (hprim : ∀ id p, s.evaluations.lookup id = some p →
      p < s.allocated ∧ (s.objects p).ID = id) :
    (∀ r p, (step env op s).evaluationsByReportID.lookup r = some p →
      p < (step env op s).allocated ∧ ((step env op s).objects p).ReportID = r) ∧
    (∀ id p, (step env op s).evaluations.lookup id = some p →
      p < (step env op s).allocated ∧ ((step env op s).objects p).ID = id) := by
  cases op with
  | save e =>
    obtain ⟨hobj, halloc, hevals, hbyr⟩ := step_save env e s
    rw [hobj, halloc, hevals, hbyr]
    constructor
    · intro r p h
      by_cases hr : r = e.ReportID
      · rw [hr, AList.lookup_insert] at h
        cases h
        exact ⟨Nat.lt_succ_self _, by rw [Function.update_same, hr]⟩
      · rw [AList.lookup_insert_ne hr] at h
        obtain ⟨hlt, hkey⟩ := hby r p h
        exact ⟨Nat.lt_succ_of_lt hlt, by rw [Function.update_noteq (Nat.ne_of_lt hlt)]; exact hkey⟩
    · intro id p h
      by_cases hid : id = if e.ID = "" then env.uuid s.uuidDraws else e.ID
      · rw [hid, AList.lookup_insert] at h
        cases h
        exact ⟨Nat.lt_succ_self _, by rw [Function.update_same, hid]⟩
      · rw [AList.lookup_insert_ne hid] at h
        obtain ⟨hlt, hkey⟩ := hprim id p h
        exact ⟨Nat.lt_succ_of_lt hlt, by rw [Function.update_noteq (Nat.ne_of_lt hlt)]; exact hkey⟩
  | delete id =>
    rcases step_delete id env s with ⟨-, hsame⟩ | ⟨d, -, hstep⟩
    · rw [hsame]
      exact ⟨hby, hprim⟩
    · rw [hstep]
      exact ⟨fun r p h => hby r p (lookup_erase_some h).2,
        fun k p h => hprim k p (lookup_erase_some h).2⟩

/-- Every step that does not save under an existing ID keeps: the pointer found under a
report reference is the pointer stored in the primary map under the ID of its struct. -/
theorem step_indexed (env : Env) (op : EvalOp) (s : Store)
    (hfresh : ∀ e, op = .save e →
      (if e.ID = "" then env.uuid s.uuidDraws else e.ID) ∉ s.evaluations)
    (hby : ∀ r p, s.evaluationsByReportID.lookup r = some p →
      p < s.allocated ∧ (s.objects p).ReportID = r)
    (hs : ∀ r p, s.evaluationsByReportID.lookup r = some p →
      s.evaluations.lookup (s.objects p).ID = some p) :
    ∀ r p, (step env op s).evaluationsByReportID.lookup r = some p →
      (step env op s).evaluations.lookup ((step env op s).objects p).ID = some p := by
  intro r p h
  cases op with
  | save e =>
    obtain ⟨hobj, -, hevals, hbyr⟩ := step_save env e s
    rw [hbyr] at h
    rw [hobj, hevals]
    by_cases hr : r = e.ReportID
    · rw [hr, AList.lookup_insert] at h
      cases h
      rw [Function.update_same]
      exact AList.lookup_insert _
    · rw [AList.lookup_insert_ne hr] at h
      rw [Function.update_noteq (Nat.ne_of_lt (hby r p h).1)]
      have hold := hs r p h
      have hne : (s.objects p).ID ≠ if e.ID = "" then env.uuid s.uuidDraws else e.ID := by
        intro heq
        rw [heq] at hold
        exact hfresh e rfl (AList.lookup_isSome.mp (by simp [hold]))
      rw [AList.lookup_insert_ne hne]
      exact hold
  | delete id =>
    rcases step_delete id env s with ⟨-, hsame⟩ | ⟨d, hdel, hstep⟩
    · rw [hsame] at h ⊢
      exact hs r p h
    · rw [hstep] at h ⊢
      obtain ⟨hr, hold⟩ := lookup_erase_some h
      have hstored := hs r p hold
      have hne : (s.objects p).ID ≠ id := by
        intro heq
        rw [heq, hdel] at hstored
        cases hstored
        exact hr (hby r p hold).2.symm
      show (s.evaluations.erase id).lookup (s.objects p).ID = some p
      rw [AList.lookup_erase_ne hne]
      exact hstored

/-- A `SaveEvaluation` step keeps: every struct of the primary map has an entry under its
report reference. -/
theorem step_save_covered (env : Env) (e : Evaluation) (s : Store)
    (hprim : ∀ id p, s.evaluations.lookup id = some p →
      p < s.allocated ∧ (s.objects p).ID = id)
    (hs : ∀ id p, s.evaluations.lookup id = some p →
      ((s.evaluationsByReportID.lookup (s.objects p).ReportID).isSome = true)) :
    ∀ id p, (step env (.save e) s).evaluations.lookup id = some p →
      (((step env (.save e) s).evaluationsByReportID.lookup
        ((step env (.save e) s).objects p).ReportID).isSome = true) := by
  intro id p h
  obtain ⟨hobj, -, hevals, hbyr⟩ := step_save env e s
  rw [hevals] at h
  rw [hobj, hbyr]
  by_cases hid : id = if e.ID = "" then env.uuid s.uuidDraws else e.ID
  · rw [hid, AList.lookup_insert] at h
    cases h
    rw [Function.update_same]
    show ((s.evaluationsByReportID.insert e.ReportID s.allocated).lookup e.ReportID).isSome = true
    rw [AList.lookup_insert]
    rfl
  · rw [AList.lookup_insert_ne hid] at h
    rw [Function.update_noteq (Nat.ne_of_lt (hprim id p h).1)]
    by_cases hr : (s.objects p).ReportID = e.ReportID
    · rw [hr, AList.lookup_insert]
      rfl
    · rw [AList.lookup_insert_ne hr]
      exact hs id p h

/-- Every step that does not save for a report already referenced in the primary map
keeps: the pointer of every struct of the primary map is the one stored under its report
reference. -/
theorem step_paired (env : Env) (op : EvalOp) (s : Store)
    (hone : ∀ e, op = .save e →
      ∀ entry ∈ s.evaluations.entries, (s.objects entry.2).ReportID ≠ e.ReportID)
    (hprim : ∀ id p, s.evaluations.lookup id = some p →
      p < s.allocated ∧ (s.objects p).ID = id)
    (hs : ∀ id p, s.evaluations.lookup id = some p →
      s.evaluationsByReportID.lookup (s.objects p).ReportID = some p) :
    ∀ id p, (step env op s).evaluations.lookup id = some p →
      (step env op s).evaluationsByReportID.lookup ((step env op s).objects p).ReportID =
        some p := by
  intro k p h
  cases op with
  | save e =>
    obtain ⟨hobj, -, hevals, hbyr⟩ := step_save env e s
    rw [hevals] at h
    rw [hobj, hbyr]
    by_cases hk : k = if e.ID = "" then env.uuid s.uuidDraws else e.ID
    · rw [hk, AList.lookup_insert] at h
      cases h
      rw [Function.update_same]
      exact AList.lookup_insert _
    · rw [AList.lookup_insert_ne hk] at h
      rw [Function.update_noteq (Nat.ne_of_lt (hprim k p h).1)]
      have hr : (s.objects p).ReportID ≠ e.ReportID :=
        hone e rfl ⟨k, p⟩ (AList.mem_lookup_iff.mp h)
      rw [AList.lookup_insert_ne hr]
      exact hs k p h
  | delete id =>
    rcases step_delete id env s with ⟨-, hsame⟩ | ⟨d, hdel, hstep⟩
    · rw [hsame] at h ⊢
      exact hs k p h
    · rw [hstep] at h ⊢
      obtain ⟨hk, hold⟩ := lookup_erase_some h
      have hne : (s.objects p).ReportID ≠ (s.objects d).ReportID := by
        intro heq
        have hp := hs k p hold
        rw [heq, hs id d hdel] at hp
        cases hp
        exact hk ((hprim k p hold).2.symm.trans (hprim id p hdel).2)
      show (s.evaluationsByReportID.erase (s.objects d).ReportID).lookup
        (s.objects p).ReportID = some p
      rw [AList.lookup_erase_ne hne]
      exact hs k p hold

/-- The start-up pointer store: the sample struct at address 0 is stored under
`eval-123` and under `report-123`, and nothing else is stored. -/
theorem initStore_lookups (env : Env) :
    (∀ r p, (initStore env).evaluationsByReportID.lookup r = some p →
      r = "report-123" ∧ p = 0) ∧
    (∀ id p, (initStore env).evaluations.lookup id = some p → id = "eval-123" ∧ p = 0) ∧
    (initStore env).evaluationsByReportID.lookup "report-123" = some 0 ∧
    (initStore env).evaluations.lookup "eval-123" = some 0 ∧
    ((initStore env).objects 0).ID = "eval-123" ∧
    ((initStore env).objects 0).ReportID = "report-123" ∧
    (initStore env).allocated = 1 := by
  refine ⟨?_, ?_, ?_, ?_, ?_, ?_, rfl⟩
  · intro r p h
    simp only [initStore, init, new, emptyStore, List.foldl, Function.update_same] at h
    by_cases hr : r = "report-123"
    · rw [hr, AList.lookup_insert] at h
      cases h
      exact ⟨hr, rfl⟩
    · rw [AList.lookup_insert_ne hr] at h
      cases h
  · intro id p h
    simp only [initStore, init, new, emptyStore, List.foldl, Function.update_same] at h
    by_cases hid : id = "eval-123"
    · rw [hid, AList.lookup_insert] at h
      cases h
      exact ⟨hid, rfl⟩
    · rw [AList.lookup_insert_ne hid] at h
      cases h
  · simp only [initStore, init, new, emptyStore, List.foldl, Function.update_same]
    exact AList.lookup_insert _
  · simp only [initStore, init, new, emptyStore, List.foldl, Function.update_same]
    exact AList.lookup_insert _
  · simp only [initStore, init, new, emptyStore, List.foldl, Function.update_same]
  · simp only [initStore, init, new, emptyStore, List.foldl, Function.update_same]

/-- Every sequence of calls keeps the keys of the stored structs. -/
theorem run_keyed (env : Env) (ops : List EvalOp) :
    ∀ s : Store,
      (∀ r p, s.evaluationsByReportID.lookup r = some p →
        p < s.allocated ∧ (s.objects p).ReportID = r) →
      (∀ id p, s.evaluations.lookup id = some p →
        p < s.allocated ∧ (s.objects p).ID = id) →
      (∀ r p, (run env ops s).evaluationsByReportID.lookup r = some p →
        p < (run env ops s).allocated ∧ ((run env ops s).objects p).ReportID = r) ∧
      (∀ id p, (run env ops s).evaluations.lookup id = some p →
        p < (run env ops s).allocated ∧ ((run env ops s).objects p).ID = id) := by
  induction ops with
  | nil => exact fun s hby hprim => ⟨hby, hprim⟩
  | cons op ops ih =>
    intro s hby hprim
    exact ih _ (step_keyed env op s hby hprim).1 (step_keyed env op s hby hprim).2

/-- Every sequence of fresh saves and deletions keeps the secondary index inside the
primary map. -/
theorem run_indexed (env : Env) (ops : List EvalOp) :
    ∀ s : Store, freshSaves env ops s →
      (∀ r p, s.evaluationsByReportID.lookup r = some p →
        p < s.allocated ∧ (s.objects p).ReportID = r) →
      (∀ id p, s.evaluations.lookup id = some p →
        p < s.allocated ∧ (s.objects p).ID = id) →
      (∀ r p, s.evaluationsByReportID.lookup r = some p →
        s.evaluations.lookup (s.objects p).ID = some p) →
      ∀ r p, (run env ops s).evaluationsByReportID.lookup r = some p →
        (run env ops s).evaluations.lookup ((run env ops s).objects p).ID = some p := by
  induction ops with
  | nil => exact fun s _ _ _ hs => hs
  | cons op ops ih =>
    intro s hfresh hby hprim hs
    have hkeyed := step_keyed env op s hby hprim
    cases op with
    | save e =>
      exact ih _ hfresh.2 hkeyed.1 hkeyed.2
        (step_indexed env (.save e) s (fun x hx => by cases hx; exact hfresh.1) hby hs)
    | delete id =>
      exact ih _ hfresh hkeyed.1 hkeyed.2
        (step_indexed env (.delete id) s (fun x hx => by cases hx) hby hs)

/-- Every sequence of saves keeps an entry in the secondary index for every struct of the
primary map. -/
theorem run_covered (env : Env) (ops : List EvalOp) (hsaves : savesOnly ops) :
    ∀ s : Store,
      (∀ r p, s.evaluationsByReportID.lookup r = some p →
        p < s.allocated ∧ (s.objects p).ReportID = r) →
      (∀ id p, s.evaluations.lookup id = some p →
        p < s.allocated ∧ (s.objects p).ID = id) →
      (∀ id p, s.evaluations.lookup id = some p →
        ((s.evaluationsByReportID.lookup (s.objects p).ReportID).isSome = true)) →
      ∀ id p, (run env ops s).evaluations.lookup id = some p →
        (((run env ops s).evaluationsByReportID.lookup
          ((run env ops s).objects p).ReportID).isSome = true) := by
  induction ops with
  | nil => exact fun s _ _ hs => hs
  | cons op ops ih =>
    intro s hby hprim hs
    have hkeyed := step_keyed env op s hby hprim
    cases op with
    | save e => exact ih hsaves _ hkeyed.1 hkeyed.2 (step_save_covered env e s hprim hs)
    | delete id => exact False.elim hsaves

/-- Every sequence of calls that saves at most one evaluation per report keeps every
struct of the primary map under its report reference. -/
theorem run_paired (env : Env) (ops : List EvalOp) :
    ∀ s : Store, onePerReport env ops s →
      (∀ r p, s.evaluationsByReportID.lookup r = some p →
        p < s.allocated ∧ (s.objects p).ReportID = r) →
      (∀ id p, s.evaluations.lookup id = some p →
        p < s.allocated ∧ (s.objects p).ID = id) →
      (∀ id p, s.evaluations.lookup id = some p →
        s.evaluationsByReportID.lookup (s.objects p).ReportID = some p) →
      ∀ id p, (run env ops s).evaluations.lookup id = some p →
        (run env ops s).evaluationsByReportID.lookup ((run env ops s).objects p).ReportID =
          some p := by
  induction ops with
  | nil => exact fun s _ _ _ hs => hs
  | cons op ops ih =>
    intro s hone hby hprim hs
    have hkeyed := step_keyed env op s hby hprim
    cases op with
    | save e =>
      exact ih _ hone.2 hkeyed.1 hkeyed.2
        (step_paired env (.save e) s (fun x hx => by cases hx; exact hone.1) hprim hs)
    | delete id =>
      exact ih _ hone hkeyed.1 hkeyed.2
        (step_paired env (.delete id) s (fun x hx => by cases hx) hprim hs)

theorem lookupByID_eq_ok {id : String} {s : Store} {p : Ptr} :
    GetEvaluationByID id s = .ok p ↔ s.evaluations.lookup id = some p := by
  unfold GetEvaluationByID
  cases s.evaluations.lookup id <;> simp

theorem lookupByReportID_eq_ok {r : String} {s : Store} {p : Ptr} :
    GetEvaluationByReportID r s = .ok p ↔ s.evaluationsByReportID.lookup r = some p := by
  unfold GetEvaluationByReportID
  cases s.evaluationsByReportID.lookup r <;> simp

/-- The keys of the start-up pointer store. -/
theorem initStore_keyed (env : Env) :
    (∀ r p, (initStore env).evaluationsByReportID.lookup r = some p →
      p < (initStore env).allocated ∧ ((initStore env).objects p).ReportID = r) ∧
    (∀ id p, (initStore env).evaluations.lookup id = some p →
      p < (initStore env).allocated ∧ ((initStore env).objects p).ID = id) := by
  obtain ⟨hby, hprim, -, -, hid, hrid, halloc⟩ := initStore_lookups env
  constructor
  · intro r p h
    obtain ⟨hr, hp⟩ := hby r p h
    rw [hr, hp, halloc]
    exact ⟨Nat.zero_lt_one, hrid⟩
  · intro id p h
    obtain ⟨hi, hp⟩ := hprim id p h
    rw [hi, hp, halloc]
    exact ⟨Nat.zero_lt_one, hid⟩

end ptr

end models

namespace models

/-- C23, as the code has it. Take any store reached from the start-up store by a sequence
of `DeleteEvaluation` calls and `SaveEvaluation` calls, each `SaveEvaluation` on a newly
built struct. (1) The struct behind the pointer returned by `GetEvaluationByReportID(r)`
has `ReportID` r. (2) When every `SaveEvaluation` of the sequence stores under an ID that
is not yet a key of the primary map, that pointer is the one stored in the primary map
under the ID of its struct. (3) When the sequence has no `DeleteEvaluation`,
`GetEvaluationByReportID` succeeds for the `ReportID` of every struct of the primary map.
(4) When every `SaveEvaluation` stores under an ID that is not yet a key of the primary map
and for a report that no struct of the primary map references, `GetEvaluationByReportID(r)`
succeeds if and only if the primary map holds a struct whose `ReportID` is r. -/
theorem evaluation_index (env : Env) (ops : List EvalOp) :
    (∀ r p, ptr.GetEvaluationByReportID r (ptr.run env ops (ptr.initStore env)) = .ok p →
      ((ptr.run env ops (ptr.initStore env)).objects p).ReportID = r) ∧
    (ptr.freshSaves env ops (ptr.initStore env) →
      ∀ r p, ptr.GetEvaluationByReportID r (ptr.run env ops (ptr.initStore env)) = .ok p →
        ptr.GetEvaluationByID ((ptr.run env ops (ptr.initStore env)).objects p).ID
          (ptr.run env ops (ptr.initStore env)) = .ok p) ∧
    (ptr.savesOnly ops →
      ∀ id p, ptr.GetEvaluationByID id (ptr.run env ops (ptr.initStore env)) = .ok p →
        ∃ q, ptr.GetEvaluationByReportID
          ((ptr.run env ops (ptr.initStore env)).objects p).ReportID
          (ptr.run env ops (ptr.initStore env)) = .ok q) ∧
    (ptr.freshSaves env ops (ptr.initStore env) →
      ptr.onePerReport env ops (ptr.initStore env) →
      ∀ r, (∃ q, ptr.GetEvaluationByReportID r (ptr.run env ops (ptr.initStore env)) = .ok q) ↔
        ∃ id p, ptr.GetEvaluationByID id (ptr.run env ops (ptr.initStore env)) = .ok p ∧
          ((ptr.run env ops (ptr.initStore env)).objects p).ReportID = r) := by
  obtain ⟨hby0, hprim0, hbyl, hpriml, hid0, hrid0, -⟩ := ptr.initStore_lookups env
  obtain ⟨hkby, hkprim⟩ := ptr.initStore_keyed env
  have hkeyed := ptr.run_keyed env ops (ptr.initStore env) hkby hkprim
  have hindexed0 : ∀ r p, (ptr.initStore env).evaluationsByReportID.lookup r = some p →
      (ptr.initStore env).evaluations.lookup ((ptr.initStore env).objects p).ID = some p := by
    intro r p h
    rw [(hby0 r p h).2, hid0]
    exact hpriml
  have hpaired0 : ∀ id p, (ptr.initStore env).evaluations.lookup id = some p →
      (ptr.initStore env).evaluationsByReportID.lookup
        ((ptr.initStore env).objects p).ReportID = some p := by
    intro id p h
    rw [(hprim0 id p h).2, hrid0]
    exact hbyl
  refine ⟨?_, ?_, ?_, ?_⟩
  · intro r p h
    exact (hkeyed.1 r p (ptr.lookupByReportID_eq_ok.mp h)).2
  · intro hfresh r p h
    exact ptr.lookupByID_eq_ok.mpr
      (ptr.run_indexed env ops (ptr.initStore env) hfresh hkby hkprim hindexed0 r p
        (ptr.lookupByReportID_eq_ok.mp h))
  · intro hsaves id p h
    have hsome := ptr.run_covered env ops hsaves (ptr.initStore env) hkby hkprim
      (fun id p h => by rw [hpaired0 id p h]; rfl) id p (ptr.lookupByID_eq_ok.mp h)
    obtain ⟨q, hq⟩ := Option.isSome_iff_exists.mp hsome
    exact ⟨q, ptr.lookupByReportID_eq_ok.mpr hq⟩
  · intro hfresh hone r
    constructor
    · rintro ⟨q, hq⟩
      have hlook := ptr.lookupByReportID_eq_ok.mp hq
      exact ⟨_, q, ptr.lookupByID_eq_ok.mpr
        (ptr.run_indexed env ops (ptr.initStore env) hfresh hkby hkprim hindexed0 r q hlook),
        (hkeyed.1 r q hlook).2⟩
    · rintro ⟨id, p, hp, hr⟩
      have hpair := ptr.run_paired env ops (ptr.initStore env) hone hkby hkprim hpaired0 id p
        (ptr.lookupByID_eq_ok.mp hp)
      rw [hr] at hpair
      exact ⟨p, ptr.lookupByReportID_eq_ok.mpr hpair⟩

theorem evaluation_index_witness :
    ((ptr.run demo.env [.save demo.secondEvaluation] (ptr.initStore demo.env)).objects
        1).ReportID = "report-123" ∧
    ptr.GetEvaluationByID
      ((ptr.run demo.env [.save demo.secondEvaluation] (ptr.initStore demo.env)).objects 1).ID
      (ptr.run demo.env [.save demo.secondEvaluation] (ptr.initStore demo.env)) = .ok 1 ∧
    (∃ q, ptr.GetEvaluationByReportID
      ((ptr.run demo.env [.save demo.secondEvaluation] (ptr.initStore demo.env)).objects
        0).ReportID
      (ptr.run demo.env [.save demo.secondEvaluation] (ptr.initStore demo.env)) = .ok q) ∧
    (∃ id p,
      ptr.GetEvaluationByID id
        (ptr.run demo.env [.delete "eval-123", .save demo.secondEvaluation]
          (ptr.initStore demo.env)) = .ok p ∧
      ((ptr.run demo.env [.delete "eval-123", .save demo.secondEvaluation]
          (ptr.initStore demo.env)).objects p).ReportID = "report-123") :=
  ⟨(evaluation_index demo.env [.save demo.secondEvaluation]).1 "report-123" 1 rfl,
    (evaluation_index demo.env [.save demo.secondEvaluation]).2.1 ⟨by decide, trivial⟩
      "report-123" 1 rfl,
    (evaluation_index demo.env [.save demo.secondEvaluation]).2.2.1 trivial "eval-123" 0 rfl,
    ((evaluation_index demo.env [.delete "eval-123", .save demo.secondEvaluation]).2.2.2
      ⟨by decide, trivial⟩ ⟨by decide, trivial⟩ "report-123").mp ⟨1, rfl⟩⟩

/-- C23, as the claim has it, fails in three ways. After saving a second evaluation for
`report-123` and deleting `eval-123`, the primary map holds a struct whose `ReportID` is
`report-123` while `GetEvaluationByReportID` returns not found. After saving a new struct
with the ID `eval-123` and the `ReportID` `report-456`, `GetEvaluationByReportID` still
returns the old struct for `report-123`, which is not the one stored under its ID, and no
struct of the primary map references `report-123`. After the caller assigns `ReportID`
`report-456` through the pointer stored under `eval-123` and saves it,
`GetEvaluationByReportID` returns for `report-123` a struct whose `ReportID` is
`report-456`. -/
theorem evaluation_index_broken :
    (ptr.GetEvaluationByReportID "report-123"
        (ptr.run demo.env [.save demo.secondEvaluation, .delete "eval-123"]
          (ptr.initStore demo.env)) = .error .ErrEvaluationNotFound ∧
      ptr.GetEvaluationByID "generated-id-"
        (ptr.run demo.env [.save demo.secondEvaluation, .delete "eval-123"]
          (ptr.initStore demo.env)) = .ok 1 ∧
      ((ptr.run demo.env [.save demo.secondEvaluation, .delete "eval-123"]
          (ptr.initStore demo.env)).objects 1).ReportID = "report-123") ∧
    (ptr.GetEvaluationByReportID "report-123"
        (ptr.run demo.env [.save demo.eval123Moved] (ptr.initStore demo.env)) = .ok 0 ∧
      ptr.GetEvaluationByID
        ((ptr.run demo.env [.save demo.eval123Moved] (ptr.initStore demo.env)).objects 0).ID
        (ptr.run demo.env [.save demo.eval123Moved] (ptr.initStore demo.env)) = .ok 1 ∧
      ∀ entry ∈
          (ptr.run demo.env [.save demo.eval123Moved] (ptr.initStore demo.env)).evaluations.entries,
        ((ptr.run demo.env [.save demo.eval123Moved] (ptr.initStore demo.env)).objects
          entry.2).ReportID ≠ "report-123") ∧
    (ptr.GetEvaluationByReportID "report-123"
        (ptr.SaveEvaluation demo.env 0 demo.storeReassigned).2 = .ok 0 ∧
      ((ptr.SaveEvaluation demo.env 0 demo.storeReassigned).2.objects 0).ReportID =
        "report-456") :=
  ⟨⟨rfl, rfl, rfl⟩, ⟨rfl, rfl, by decide⟩, ⟨rfl, rfl⟩⟩

end models
